import Mathlib

/-!
Verification of the 1Password Connect MCP server (primrose-mcp-1password).

A shallow embedding of the TypeScript sources of the repository:

* `src/client.ts`            — the per-tenant Connect HTTP client adapter
  (`OnePasswordClientImpl`, `createOnePasswordClient`, `request`, `testConnection`,
  `createItem`, `patchItem`, `listActivity`, …);
* `src/index.ts`             — the Worker `fetch` entry point and credential gate;
* `src/types/env.ts`         — `TenantCredentials`, `parseTenantCredentials`,
  `validateCredentials`;
* `src/types/entities.ts`    — entity and pagination record shapes;
* `src/utils/errors.ts`      — the error taxonomy classes;
* `src/utils/formatters.ts`  — `formatResponse` (structured / JSON mode);
* `src/tools/items.ts`       — the `1password_create_item` / `1password_patch_item`
  tool handlers.

JavaScript runtime values that can appear in a JSON document are modelled by the
inductive type `Json` (numbers restricted to integers, which covers every numeric
field the adapter produces).  `undefined` is modelled as `Option.none` at the
positions where the source can produce it.  Exceptions are modelled with
`Except`: `JsError` is either a member of the repository's error taxonomy
(`OPError`, from `src/utils/errors.ts`) or a built-in runtime error
(`TypeError`, `SyntaxError`), whose engine-supplied message texts are fixed
constants here.  JavaScript's `NaN` (which `parseInt` returns on unparsable
input) is modelled as `Option.none : Option Int`.
-/

-- =============================================================================
-- JSON values (the JavaScript data the adapter moves around)
-- =============================================================================

/-- A JSON value.  Object fields are kept in insertion order, matching the
enumeration order `JSON.stringify` uses for the plain-data objects this
repository builds. -/
inductive Json where
  | null : Json
  | bool : Bool → Json
  | num : Int → Json
  | str : String → Json
  | arr : List Json → Json
  | obj : List (String × Json) → Json

/-- Property access `j.k` in JavaScript: defined only on objects; on every
other (non-null, non-undefined) value the named properties we read are
`undefined`, i.e. `none`. -/
def lookupField : Json → String → Option Json
  | .obj fields, k => go fields k
  | _, _ => none
where
  go : List (String × Json) → String → Option Json
    | [], _ => none
    | (k', v) :: t, k => if k' = k then some v else go t k

/-- JavaScript truthiness of a defined value. -/
def jsTruthy : Json → Bool
  | .null => false
  | .bool b => b
  | .num n => n != 0
  | .str s => !s.isEmpty
  | .arr _ => true
  | .obj _ => true

mutual

/-- JavaScript `String(v)` / template-literal coercion of a defined value. -/
def jsToString : Json → String
  | .null => "null"
  | .bool b => cond b "true" "false"
  | .num n => toString n
  | .str s => s
  | .arr xs => jsArrJoin xs
  | .obj _ => "[object Object]"

/-- Model of `Array.prototype.toString`: elements joined with commas, `null` elements
rendered as the empty string. -/
def jsArrJoin : List Json → String
  | [] => ""
  | [.null] => ""
  | [x] => jsToString x
  | .null :: xs => "," ++ jsArrJoin xs
  | x :: xs => jsToString x ++ "," ++ jsArrJoin xs

end

/-- Template interpolation of a possibly-`undefined` value (`undefined`
renders as the string `undefined`). -/
def jsTemplate : Option Json → String
  | none => "undefined"
  | some v => jsToString v

/-- Assignment `obj[k] = v` on an association list that represents a JavaScript object:
replaces the value at the first occurrence of the key (JavaScript objects have
unique keys), otherwise appends. Also models a spread override
`{...o, k: v}`. -/
def jsSetField {α : Type} : List (String × α) → String → α → List (String × α)
  | [], k, v => [(k, v)]
  | (k', v') :: t, k, v => if k' = k then (k', v) :: t else (k', v') :: jsSetField t k v

/-- Association-list lookup (first occurrence), used for header maps. -/
def jsLookup {α : Type} : List (String × α) → String → Option α
  | [], _ => none
  | (k', v) :: t, k => if k' = k then some v else jsLookup t k

-- =============================================================================
-- Compact JSON serialisation (JSON.stringify with no indent, used for bodies)
-- =============================================================================

/-- Lower-case hexadecimal digit, as emitted in `\u00XX` escapes. -/
def hexDigitLower (n : Nat) : Char :=
  if n < 10 then Char.ofNat (48 + n) else Char.ofNat (97 + n - 10)

/-- Upper-case hexadecimal digit, as emitted by `encodeURIComponent`. -/
def hexDigitUpper (n : Nat) : Char :=
  if n < 10 then Char.ofNat (48 + n) else Char.ofNat (65 + n - 10)

/-- How `JSON.stringify` escapes one character inside a string literal. -/
def escapeChar (c : Char) : List Char :=
  if c = '"' then ['\\', '"']
  else if c = '\\' then ['\\', '\\']
  else if c = '\n' then ['\\', 'n']
  else if c = '\r' then ['\\', 'r']
  else if c = '\t' then ['\\', 't']
  else if c.toNat = 8 then ['\\', 'b']
  else if c.toNat = 12 then ['\\', 'f']
  else if c.toNat < 32 then
    ['\\', 'u', '0', '0', hexDigitLower (c.toNat / 16), hexDigitLower (c.toNat % 16)]
  else [c]

/-- Escape a whole character list. -/
def escapeList : List Char → List Char
  | [] => []
  | c :: t => escapeChar c ++ escapeList t

/-- A JSON string literal, quotes included. -/
def printString (s : String) : List Char :=
  '"' :: escapeList s.toList ++ ['"']

/-- Decimal digits of a natural number, most significant first. -/
def printNat (m : Nat) : List Char :=
  if h : m < 10 then [Char.ofNat (48 + m)]
  else printNat (m / 10) ++ [Char.ofNat (48 + m % 10)]
  decreasing_by exact Nat.div_lt_self (by omega) (by omega)

/-- Decimal notation of an integer, as `JSON.stringify` emits it. -/
def printInt (n : Int) : List Char :=
  if n < 0 then '-' :: printNat n.natAbs else printNat n.natAbs

mutual

/-- Model of `JSON.stringify(v)` (compact, no indent) — used for request bodies. -/
def stringifyCompact : Json → List Char
  | .null => ['n', 'u', 'l', 'l']
  | .bool b => cond b ['t', 'r', 'u', 'e'] ['f', 'a', 'l', 's', 'e']
  | .num n => printInt n
  | .str s => printString s
  | .arr xs => '[' :: stringifyCompactElems xs ++ [']']
  | .obj fs => '{' :: stringifyCompactFields fs ++ ['}']

def stringifyCompactElems : List Json → List Char
  | [] => []
  | [x] => stringifyCompact x
  | x :: xs => stringifyCompact x ++ ',' :: stringifyCompactElems xs

def stringifyCompactFields : List (String × Json) → List Char
  | [] => []
  | [(k, v)] => printString k ++ ':' :: stringifyCompact v
  | (k, v) :: fs => printString k ++ ':' :: stringifyCompact v ++ ',' :: stringifyCompactFields fs

end

/-- Model of `JSON.stringify(v)` as a `String`. -/
def jsonStringify (v : Json) : String := String.mk (stringifyCompact v)

-- =============================================================================
-- Error taxonomy (src/utils/errors.ts)
-- =============================================================================

/-- The data carried by a member of the `OnePasswordApiError` class hierarchy.
`retryAfterSeconds` is `some _` exactly for `RateLimitError`; the inner
`Option Int` is the JavaScript number, with `none` standing for `NaN`. -/
structure OPError where
  name : String
  message : String
  statusCode : Option Nat
  code : String
  retryable : Bool
  retryAfterSeconds : Option (Option Int)
deriving DecidableEq, Repr

/-- Constructor `new OnePasswordApiError(message, statusCode?, code?, retryable = false)`:
the code defaults to `ONEPASSWORD_ERROR` when absent or empty (`code || '...'`). -/
def OnePasswordApiError (message : String) (statusCode : Option Nat)
    (code : Option String) (retryable : Bool) : OPError :=
  ⟨"OnePasswordApiError", message, statusCode,
    (match code with
     | some s => if s.isEmpty then "ONEPASSWORD_ERROR" else s
     | none => "ONEPASSWORD_ERROR"),
    retryable, none⟩

/-- Constructor `new RateLimitError(message, retryAfterSeconds)`:
`super(message, 429, 'RATE_LIMIT_EXCEEDED', true)` plus the retry-after field. -/
def RateLimitError (message : String) (retryAfterSeconds : Option Int) : OPError :=
  ⟨"RateLimitError", message, some 429, "RATE_LIMIT_EXCEEDED", true, some retryAfterSeconds⟩

/-- Constructor `new AuthenticationError(message)`: `super(message, 401, 'AUTHENTICATION_FAILED', false)`. -/
def AuthenticationError (message : String) : OPError :=
  ⟨"AuthenticationError", message, some 401, "AUTHENTICATION_FAILED", false, none⟩

/-- Constructor `new AuthorizationError(message)`: `super(message, 403, 'AUTHORIZATION_FAILED', false)`. -/
def AuthorizationError (message : String) : OPError :=
  ⟨"AuthorizationError", message, some 403, "AUTHORIZATION_FAILED", false, none⟩

/-- Constructor `new NotFoundError(entityType, id)`:
`super(`entityType with ID 'id' not found`, 404, 'NOT_FOUND', false)`. -/
def NotFoundError (entityType id : String) : OPError :=
  ⟨"NotFoundError", entityType ++ " with ID \x27" ++ id ++ "\x27 not found",
    some 404, "NOT_FOUND", false, none⟩

/-- A thrown JavaScript error: either a taxonomy member from
`src/utils/errors.ts` or a runtime built-in (`TypeError`, `SyntaxError`). -/
inductive JsError where
  | op : OPError → JsError
  | builtin : String → String → JsError
deriving DecidableEq, Repr

/-- Accessor `error.message` of a thrown error. -/
def JsError.message : JsError → String
  | .op e => e.message
  | .builtin _ m => m

-- =============================================================================
-- Tenant credentials (src/types/env.ts)
-- =============================================================================

/-- Record `TenantCredentials`: both header-derived fields optional. -/
structure TenantCredentials where
  connectToken : Option String
  connectHost : Option String
deriving DecidableEq, Repr

/-- JavaScript falsiness of an optional string: `undefined` or `''`. -/
def jsFalsyStr : Option String → Bool
  | none => true
  | some s => s.isEmpty

/-- Coercion `headers.get(h) || undefined`: absent stays absent, the empty string is
coerced to `undefined`. -/
def jsOrUndefined : Option String → Option String
  | none => none
  | some s => if s.isEmpty then none else some s

/-- The two header values `fetch` can read from an inbound Worker request.
Each field is the result of `request.headers.get(...)` (`none` = header
absent), together with the routing data the handler consults. -/
structure WorkerRequest where
  path : String
  method : String
  tokenHeader : Option String
  hostHeader : Option String
deriving DecidableEq, Repr

/-- Model of `parseTenantCredentials(request)` (src/types/env.ts): each header value is
passed through `|| undefined`. -/
def parseTenantCredentials (r : WorkerRequest) : TenantCredentials :=
  ⟨jsOrUndefined r.tokenHeader, jsOrUndefined r.hostHeader⟩

/-- Model of `validateCredentials(credentials)` (src/types/env.ts): throws an `Error`
naming the missing header; the token is checked first. -/
def validateCredentials (c : TenantCredentials) : Except String Unit :=
  if jsFalsyStr c.connectToken then
    .error "Missing X-1Password-Connect-Token header. Provide your Connect server token."
  else if jsFalsyStr c.connectHost then
    .error ("Missing X-1Password-Connect-Host header. " ++
      "Provide your Connect server URL (e.g., http://localhost:8080).")
  else .ok ()

-- =============================================================================
-- Client construction (src/client.ts: OnePasswordClientImpl)
-- =============================================================================

/-- Model of `connectHost?.replace(/\/$/, '')`: the non-global anchored regex removes at
most one trailing slash. -/
def stripTrailingSlash (s : String) : String :=
  if s.toList.getLast? = some '/' then String.mk s.toList.dropLast else s

/-- The `baseUrl` computed by the `OnePasswordClientImpl` constructor:
`(credentials.connectHost?.replace(/\/$/, '') || 'http://localhost:8080') + '/v1'`.
The default also applies when the stripped host is the empty string (falsy). -/
def clientBaseUrl (c : TenantCredentials) : String :=
  (match c.connectHost with
   | none => "http://localhost:8080"
   | some h =>
     let h' := stripTrailingSlash h
     if h'.isEmpty then "http://localhost:8080" else h') ++ "/v1"

/-- Model of `getAuthHeaders()`: throws `AuthenticationError` when no (or an empty)
token is bound, else the bearer-token header pair. -/
def getAuthHeaders (c : TenantCredentials) : Except JsError (List (String × String)) :=
  if jsFalsyStr c.connectToken then
    .error (.op (AuthenticationError
      "No Connect token provided. Include X-1Password-Connect-Token header."))
  else
    .ok [("Authorization", "Bearer " ++ (match c.connectToken with | some t => t | none => "")),
         ("Content-Type", "application/json")]

/-- The per-call options `request` receives (`RequestInit`). -/
structure RequestOptions where
  method : String
  headers : List (String × String)
  body : Option String
deriving DecidableEq, Repr

/-- The `fetch(url, {...})` call the adapter issues. -/
structure OutboundRequest where
  url : String
  method : String
  headers : List (String × String)
  body : Option String
deriving DecidableEq, Repr

/-- Merge `{...this.getAuthHeaders(), ...(options.headers || {})}`: the spread keeps
the auth keys in place and lets per-call headers override by key. -/
def mergeHeaders (auth opts : List (String × String)) : List (String × String) :=
  opts.foldl (fun acc kv => jsSetField acc kv.1 kv.2) auth

/-- The outbound request `request(endpoint, options)` constructs before any
response arrives; fails exactly when `getAuthHeaders` throws. -/
def buildOutbound (c : TenantCredentials) (endpoint : String) (o : RequestOptions) :
    Except JsError OutboundRequest :=
  match getAuthHeaders c with
  | .error e => .error e
  | .ok auth => .ok ⟨clientBaseUrl c ++ endpoint, o.method, mergeHeaders auth o.headers, o.body⟩

-- =============================================================================
-- Response handling (src/client.ts: request)
-- =============================================================================

/-- The parts of an HTTP response the `request` helper inspects: the status,
the `Retry-After` header (`none` = absent), and the body interpreted as JSON
(`none` = the body text is not valid JSON, so `JSON.parse` / `response.json()`
throws on it). -/
structure HttpResponse where
  status : Nat
  retryAfter : Option String
  body : Option Json

/-- JavaScript `parseInt(s, 10)`: skip leading whitespace, optional sign, then
leading decimal digits; `none` models `NaN` (no digits found). -/
def jsParseInt (s : String) : Option Int :=
  let cs := s.toList.dropWhile Char.isWhitespace
  let signVal : Int × List Char :=
    match cs with
    | '-' :: r => (-1, r)
    | '+' :: r => (1, r)
    | r => (1, r)
  let ds := signVal.2.takeWhile Char.isDigit
  if ds.isEmpty then none
  else some (signVal.1 * Int.ofNat (ds.foldl (fun a c => 10 * a + (c.toNat - 48)) 0))

/-- Model of `retryAfter ? parseInt(retryAfter, 10) : 60`: the default 60 applies when
the header is absent or empty (falsy); a present non-empty header is handed to
`parseInt`, whose failure is `NaN` (`none`), not 60. -/
def retryAfterSecondsOf (h : Option String) : Option Int :=
  match h with
  | none => some 60
  | some s => if s.isEmpty then some 60 else jsParseInt s

/-- Truthy field access `errorJson.k`, as used by
`errorJson.message || errorJson.error || message`. -/
def truthyField (j : Json) (k : String) : Option Json :=
  match lookupField j k with
  | some v => if jsTruthy v then some v else none
  | none => none

/-- The fallback message computation for a non-2xx status outside
{401,403,404,429}: `JSON.parse` failure is swallowed by the `try`/`catch` and
the literal default is used; the `message`/`error` fields are read with `||`. -/
def errorMessageOf (body : Option Json) (status : Nat) : String :=
  let dflt := "API error: " ++ toString status
  match body with
  | none => dflt
  | some j =>
    match truthyField j "message" with
    | some v => jsToString v
    | none =>
      match truthyField j "error" with
      | some v => jsToString v
      | none => dflt

/-- The engine message of the `SyntaxError` thrown by `response.json()` on a
non-JSON 2xx body (exact text is engine-defined). -/
def syntaxErrorJsonMsg : String := "Unexpected token in JSON"

/-- The status-code dispatch of `request` on the arrived response, in source
order: 429, 401, 403, 404, any other non-ok, 204, then JSON decode. -/
def handleResponse (resp : HttpResponse) (endpoint : String) :
    Except JsError (Option Json) :=
  if resp.status = 429 then
    .error (.op (RateLimitError "Rate limit exceeded" (retryAfterSecondsOf resp.retryAfter)))
  else if resp.status = 401 then
    .error (.op (AuthenticationError "Authentication failed. Check your Connect token."))
  else if resp.status = 403 then
    .error (.op (AuthorizationError
      "Authorization failed. Check your service account permissions."))
  else if resp.status = 404 then
    .error (.op (NotFoundError "Resource" endpoint))
  else if ¬(200 ≤ resp.status ∧ resp.status ≤ 299) then
    .error (.op (OnePasswordApiError (errorMessageOf resp.body resp.status)
      (some resp.status) none false))
  else if resp.status = 204 then
    .ok none
  else
    match resp.body with
    | some j => .ok (some j)
    | none => .error (.builtin "SyntaxError" syntaxErrorJsonMsg)

/-- Model of `private async request<T>(endpoint, options)`, given the response the
network produces for the constructed outbound call. -/
def request (c : TenantCredentials) (endpoint : String) (o : RequestOptions)
    (resp : HttpResponse) : Except JsError (Option Json) :=
  match buildOutbound c endpoint o with
  | .error e => .error e
  | .ok _ => handleResponse resp endpoint

-- =============================================================================
-- Per-operation behaviour (src/client.ts)
-- =============================================================================

/-- Characters `encodeURIComponent` leaves unescaped. -/
def uriUnreserved (c : Char) : Bool :=
  c.isAlphanum || c = '-' || c = '_' || c = '.' || c = '!' || c = '~' ||
    c = '*' || c = '\x27' || c = '(' || c = ')'

/-- Percent-encoding of one byte, upper-case hex. -/
def pctByte (b : Nat) : List Char :=
  ['%', hexDigitUpper (b / 16), hexDigitUpper (b % 16)]

/-- Model of `encodeURIComponent(s)`: unreserved characters pass through, every other
character is replaced by the percent-encoding of its UTF-8 bytes. -/
def encodeURIComponent (s : String) : String :=
  String.mk (s.toList.flatMap fun c =>
    if uriUnreserved c then [c]
    else ((String.singleton c).toUTF8.toList).flatMap fun b => pctByte b.toNat)

/-- Model of `createItem`'s payload: `{...item, vault: {id: vaultId}}` followed by
`JSON.stringify`, which drops `undefined`-valued keys.  The incoming `item`
object is an association list whose values may be `undefined` (`none`). -/
def dropUndefined (l : List (String × Option Json)) : List (String × Json) :=
  l.filterMap fun kv => kv.2.map fun v => (kv.1, v)

/-- The object `createItem` serialises: the spread keeps the caller's keys and
forces the vault reference to `{id: vaultId}`. -/
def createItemBody (vaultId : String) (item : List (String × Option Json)) : Json :=
  .obj (dropUndefined (jsSetField item "vault" (some (.obj [("id", .str vaultId)]))))

/-- The outbound POST `createItem(vaultId, item)` issues. -/
def createItemRequest (c : TenantCredentials) (vaultId : String)
    (item : List (String × Option Json)) : Except JsError OutboundRequest :=
  buildOutbound c ("/vaults/" ++ encodeURIComponent vaultId ++ "/items")
    ⟨"POST", [], some (jsonStringify (createItemBody vaultId item))⟩

/-- The input object the `1password_create_item` tool handler
(src/tools/items.ts) passes to `client.createItem`: `title`, `category` and
`vault: {id: vaultId}` always present, the optional arguments possibly
`undefined`. -/
def createItemToolInput (vaultId title category : String)
    (fields sections urls tags favorite : Option Json) : List (String × Option Json) :=
  [("title", some (.str title)),
   ("category", some (.str category)),
   ("vault", some (.obj [("id", .str vaultId)])),
   ("fields", fields),
   ("sections", sections),
   ("urls", urls),
   ("tags", tags),
   ("favorite", favorite)]

/-- The outbound PATCH `patchItem(vaultId, itemId, operations)` issues: the
json-patch content type overrides the default, and the body is the
serialisation of the operation array exactly as given. -/
def patchItemRequest (c : TenantCredentials) (vaultId itemId : String)
    (operations : List Json) : Except JsError OutboundRequest :=
  buildOutbound c
    ("/vaults/" ++ encodeURIComponent vaultId ++ "/items/" ++ encodeURIComponent itemId)
    ⟨"PATCH", [("Content-Type", "application/json-patch+json")],
      some (jsonStringify (.arr operations))⟩

/-- Record `PaginationParams` for `listActivity`. -/
structure PaginationParams where
  limit : Option Int
  offset : Option Int
deriving DecidableEq, Repr

/-- JavaScript truthiness of an optional number (`undefined` and `0` falsy). -/
def jsTruthyNum : Option Int → Bool
  | none => false
  | some n => n != 0

/-- The `URLSearchParams` pairs `listActivity` sets: `limit` then `offset`,
each only when truthy. -/
def activityQueryPairs (params : Option PaginationParams) : List (String × String) :=
  match params with
  | none => []
  | some p =>
    (if jsTruthyNum p.limit then [("limit", toString ((p.limit).getD 0))] else []) ++
    (if jsTruthyNum p.offset then [("offset", toString ((p.offset).getD 0))] else [])

/-- The endpoint `listActivity` requests: `/activity` with the optional query. -/
def activityEndpoint (params : Option PaginationParams) : String :=
  let q := String.intercalate "&"
    ((activityQueryPairs params).map fun kv => kv.1 ++ "=" ++ kv.2)
  if q.isEmpty then "/activity" else "/activity?" ++ q

/-- The `.length` property of a JavaScript value that is not `null` or
`undefined` (`none` = the property is `undefined`). -/
def jsLengthProp : Json → Option Nat
  | .arr xs => some xs.length
  | .str s => some s.length
  | _ => none

/-- The pagination wrapper `listActivity` builds around the backend's bare
array: `{items, count: items.length, hasMore: false}`. -/
structure PaginatedWrap where
  items : Json
  count : Option Nat
  hasMore : Bool

/-- Engine message of the `TypeError` raised by reading `.length` of
`undefined` (the 204 case) — exact text is engine-defined. -/
def typeErrorLengthUndefined : String :=
  "Cannot read properties of undefined (reading \x27length\x27)"

/-- Engine message of the `TypeError` raised by reading `.length` of `null`. -/
def typeErrorLengthNull : String :=
  "Cannot read properties of null (reading \x27length\x27)"

/-- Model of `listActivity(params?)` given the backend response: requests
`/activity[?query]` and wraps the decoded payload, with `hasMore` always
`false` and `count = items.length`. -/
def listActivity (c : TenantCredentials) (params : Option PaginationParams)
    (resp : HttpResponse) : Except JsError PaginatedWrap :=
  match request c (activityEndpoint params) ⟨"GET", [], none⟩ resp with
  | .error e => .error e
  | .ok none => .error (.builtin "TypeError" typeErrorLengthUndefined)
  | .ok (some .null) => .error (.builtin "TypeError" typeErrorLengthNull)
  | .ok (some j) => .ok ⟨j, jsLengthProp j, false⟩

-- =============================================================================
-- testConnection (src/client.ts)
-- =============================================================================

/-- The record `testConnection` resolves with. -/
structure ConnResult where
  connected : Bool
  message : String
deriving DecidableEq, Repr

/-- Engine message of the `TypeError` raised by reading `.name` of `undefined`
(a 204 health response) — exact text is engine-defined. -/
def typeErrorNameUndefined : String :=
  "Cannot read properties of undefined (reading \x27name\x27)"

/-- Engine message of the `TypeError` raised by reading `.name` of `null`. -/
def typeErrorNameNull : String :=
  "Cannot read properties of null (reading \x27name\x27)"

/-- The success message, with `undefined` fields interpolated as the string
`undefined`, exactly as the template literal behaves. -/
def connectedMessage (h : Json) : String :=
  "Successfully connected to 1Password Connect server (" ++
    jsTemplate (lookupField h "name") ++ " v" ++ jsTemplate (lookupField h "version") ++ ")"

/-- Model of `testConnection()`: `getHealth()` is `request('/health')` with default
options; any error thrown inside the `try` is caught and reported as
`{connected: false, message}`. -/
def testConnection (c : TenantCredentials) (resp : HttpResponse) : ConnResult :=
  match request c "/health" ⟨"GET", [], none⟩ resp with
  | .error e => ⟨false, e.message⟩
  | .ok none => ⟨false, typeErrorNameUndefined⟩
  | .ok (some .null) => ⟨false, typeErrorNameNull⟩
  | .ok (some h) => ⟨true, connectedMessage h⟩

-- =============================================================================
-- Worker fetch handler (src/index.ts)
-- =============================================================================

/-- What the `fetch` entry point does with an inbound request, up to the point
where control leaves the credential gate.  `mcpDispatch` is the branch that
builds the per-tenant server and runs tool dispatch. -/
inductive FetchResult where
  | healthCheck : FetchResult
  | unauthorized : Nat → String → String → List String → FetchResult
  | mcpDispatch : TenantCredentials → FetchResult
  | sseNotImplemented : FetchResult
  | info : FetchResult
deriving DecidableEq, Repr

/-- The `fetch` handler's routing and credential gate: on `POST /mcp` the
credentials are parsed and validated before any server construction; a
validation failure yields the 401 JSON response whose `required_headers`
field always names both headers. -/
def fetchHandler (r : WorkerRequest) : FetchResult :=
  if r.path = "/health" then .healthCheck
  else if r.path = "/mcp" ∧ r.method = "POST" then
    let credentials := parseTenantCredentials r
    match validateCredentials credentials with
    | .error msg =>
      .unauthorized 401 "Unauthorized" msg
        ["X-1Password-Connect-Token", "X-1Password-Connect-Host"]
    | .ok _ => .mcpDispatch credentials
  else if r.path = "/sse" then .sseNotImplemented
  else .info
-- =============================================================================
-- Association-list lemmas
-- =============================================================================

/-- Looking up a key distinct from the one being set is unchanged. -/
theorem jsLookup_jsSetField_ne {α : Type} (l : List (String × α)) (k k' : String) (v : α)
    (h : k' ≠ k) : jsLookup (jsSetField l k' v) k = jsLookup l k := by
  induction l with
  | nil => simp [jsSetField, jsLookup, h]
  | cons hd t ih =>
    obtain ⟨kh, vh⟩ := hd
    by_cases hk : kh = k'
    · subst hk
      simp [jsSetField, jsLookup, h]
    · simp [jsSetField, hk, jsLookup, ih]

/-- Setting a key makes it the value found by lookup. -/
theorem jsLookup_jsSetField_eq {α : Type} (l : List (String × α)) (k : String) (v : α) :
    jsLookup (jsSetField l k v) k = some v := by
  induction l with
  | nil => simp [jsSetField, jsLookup]
  | cons hd t ih =>
    obtain ⟨kh, vh⟩ := hd
    by_cases hk : kh = k
    · simp [jsSetField, hk, jsLookup]
    · simp [jsSetField, hk, jsLookup, ih]

/-- A merge never touches keys the override list does not mention. -/
theorem jsLookup_mergeHeaders (auth opts : List (String × String)) (k : String)
    (h : k ∉ opts.map Prod.fst) :
    jsLookup (mergeHeaders auth opts) k = jsLookup auth k := by
  induction opts generalizing auth with
  | nil => rfl
  | cons hd t ih =>
    have h1 : hd.1 ≠ k := by
      intro hh
      exact h (by simp [hh])
    have h2 : k ∉ t.map Prod.fst := by
      intro hh
      exact h (by simp [hh])
    show jsLookup (mergeHeaders (jsSetField auth hd.1 hd.2) t) k = _
    rw [ih _ h2, jsLookup_jsSetField_ne _ _ _ _ h1]

/-- A key set by the override list is found with the overriding value,
provided it occurs only once there (later occurrences would win). -/
theorem jsLookup_mergeHeaders_override (auth : List (String × String)) (k : String) (v : String)
    (t : List (String × String)) (h : k ∉ t.map Prod.fst) :
    jsLookup (mergeHeaders auth ((k, v) :: t)) k = some v := by
  show jsLookup (mergeHeaders (jsSetField auth k v) t) k = _
  rw [jsLookup_mergeHeaders _ _ _ h, jsLookup_jsSetField_eq]

-- =============================================================================
-- C1 — per-tenant credential isolation of the constructed client
-- =============================================================================

/-- C1: the client built by `createOnePasswordClient(c)` derives its base URL
solely from `c.connectHost` and its Authorization header solely from
`c.connectToken`; the construction is a pure function of the credentials (no
module-level state exists in the model because none exists in the source), so
equal credentials give identical outbound URLs and headers, and any
successfully built request carries exactly the bearer token of its own
tenant's credentials. -/
theorem client_credential_isolation :
    (∀ c c' : TenantCredentials, c.connectHost = c'.connectHost →
      clientBaseUrl c = clientBaseUrl c')
    ∧ (∀ c c' : TenantCredentials, c.connectToken = c'.connectToken →
      getAuthHeaders c = getAuthHeaders c')
    ∧ (∀ (c c' : TenantCredentials) (e : String) (o : RequestOptions),
      c.connectHost = c'.connectHost → c.connectToken = c'.connectToken →
      buildOutbound c e o = buildOutbound c' e o)
    ∧ (∀ (c : TenantCredentials) (e : String) (o : RequestOptions) (r : OutboundRequest),
      buildOutbound c e o = .ok r → "Authorization" ∉ o.headers.map Prod.fst →
      ∃ t, c.connectToken = some t ∧ t.isEmpty = false ∧
        jsLookup r.headers "Authorization" = some ("Bearer " ++ t) ∧
        r.url = clientBaseUrl c ++ e) := by
  refine ⟨?_, ?_, ?_, ?_⟩
  · intro c c' h
    simp only [clientBaseUrl, h]
  · intro c c' h
    simp only [getAuthHeaders, jsFalsyStr, h]
  · intro c c' e o hh ht
    simp only [buildOutbound, getAuthHeaders, jsFalsyStr, clientBaseUrl, hh, ht]
  · intro c e o r hok hno
    match hc : c.connectToken with
    | none =>
      rw [buildOutbound, getAuthHeaders, hc] at hok
      simp [jsFalsyStr] at hok
    | some t =>
      by_cases he : t.isEmpty
      · rw [buildOutbound, getAuthHeaders, hc] at hok
        simp [jsFalsyStr, he] at hok
      · refine ⟨t, rfl, by simpa using he, ?_, ?_⟩
        · rw [buildOutbound, getAuthHeaders, hc] at hok
          simp only [jsFalsyStr, he, Bool.false_eq_true, if_false] at hok
          cases hok
          rw [jsLookup_mergeHeaders _ _ _ hno]
          rfl
        · rw [buildOutbound, getAuthHeaders, hc] at hok
          simp only [jsFalsyStr, he, Bool.false_eq_true, if_false] at hok
          cases hok
          rfl

/-- Witness for C1 at concrete credentials: a client bound to token `tok` and
host `http://h` issues its list-vaults call to `http://h/v1/vaults` carrying
exactly `Bearer tok`. -/
theorem client_credential_isolation_witness :
    ∃ t, (some "tok" : Option String) = some t ∧ t.isEmpty = false ∧
      jsLookup [("Authorization", "Bearer tok"), ("Content-Type", "application/json")]
        "Authorization" = some ("Bearer " ++ t) ∧
      "http://h/v1/vaults" = clientBaseUrl ⟨some "tok", some "http://h"⟩ ++ "/vaults" :=
  client_credential_isolation.2.2.2 ⟨some "tok", some "http://h"⟩ "/vaults"
    ⟨"GET", [], none⟩
    ⟨"http://h/v1/vaults", "GET",
      [("Authorization", "Bearer tok"), ("Content-Type", "application/json")], none⟩
    rfl (by simp)

-- =============================================================================
-- C3 — missing credential headers are rejected before dispatch
-- =============================================================================

@[simp] theorem jsOrUndefined_none : jsOrUndefined none = none := rfl

@[simp] theorem jsFalsyStr_none : jsFalsyStr none = true := rfl

/-- C3: a `POST /mcp` request lacking either credential header is answered by
the 401 `Unauthorized` response whose `required_headers` field names both
headers; the outcome is the `unauthorized` response, not `mcpDispatch`, so no
tool dispatch or backend call happens. -/
theorem missing_header_unauthorized (r : WorkerRequest)
    (hp : r.path = "/mcp") (hm : r.method = "POST")
    (habs : r.tokenHeader = none ∨ r.hostHeader = none) :
    ∃ msg, fetchHandler r = .unauthorized 401 "Unauthorized" msg
      ["X-1Password-Connect-Token", "X-1Password-Connect-Host"] := by
  obtain ⟨p, m, tk, hh⟩ := r
  simp only at hp hm habs
  subst hp
  subst hm
  by_cases ht : jsFalsyStr (jsOrUndefined tk)
  · exact ⟨"Missing X-1Password-Connect-Token header. Provide your Connect server token.",
      by simp [fetchHandler, parseTenantCredentials, validateCredentials, ht]⟩
  · rcases habs with h | h
    · exact absurd (by simp [h] : jsFalsyStr (jsOrUndefined tk) = true) ht
    · exact ⟨"Missing X-1Password-Connect-Host header. " ++
        "Provide your Connect server URL (e.g., http://localhost:8080).",
        by simp [fetchHandler, parseTenantCredentials, validateCredentials, ht, h]⟩

/-- Witness for C3: host header present, token header absent. -/
theorem missing_header_unauthorized_witness :
    ∃ msg, fetchHandler ⟨"/mcp", "POST", none, some "http://h"⟩
      = .unauthorized 401 "Unauthorized" msg
        ["X-1Password-Connect-Token", "X-1Password-Connect-Host"] :=
  missing_header_unauthorized ⟨"/mcp", "POST", none, some "http://h"⟩ rfl rfl (Or.inl rfl)

-- =============================================================================
-- C10 — an empty credential header behaves like an absent one
-- =============================================================================

@[simp] theorem isEmpty_empty_string : "".isEmpty = true := rfl

/-- C10: `parseTenantCredentials` coerces a present-but-empty header value to
`undefined` (`|| undefined`), `validateCredentials` rejects credentials whose
fields are `undefined`, and the whole `fetch` gate therefore treats an
empty-string header exactly like an omitted one. -/
theorem empty_header_like_absent :
    (∀ p m hh, parseTenantCredentials ⟨p, m, some "", hh⟩
      = parseTenantCredentials ⟨p, m, none, hh⟩)
    ∧ (∀ p m tk, parseTenantCredentials ⟨p, m, tk, some ""⟩
      = parseTenantCredentials ⟨p, m, tk, none⟩)
    ∧ (∀ r : WorkerRequest, r.tokenHeader = some "" →
      (parseTenantCredentials r).connectToken = none)
    ∧ (∀ r : WorkerRequest, r.hostHeader = some "" →
      (parseTenantCredentials r).connectHost = none)
    ∧ (∀ c : TenantCredentials, c.connectToken = none →
      validateCredentials c
        = .error "Missing X-1Password-Connect-Token header. Provide your Connect server token.")
    ∧ (∀ c : TenantCredentials, c.connectHost = none → ∃ msg, validateCredentials c = .error msg)
    ∧ (∀ p m hh, fetchHandler ⟨p, m, some "", hh⟩ = fetchHandler ⟨p, m, none, hh⟩)
    ∧ (∀ p m tk, fetchHandler ⟨p, m, tk, some ""⟩ = fetchHandler ⟨p, m, tk, none⟩) := by
  refine ⟨fun p m hh => rfl, fun p m tk => rfl, ?_, ?_, ?_, ?_,
    fun p m hh => rfl, fun p m tk => rfl⟩
  · intro r h
    simp [parseTenantCredentials, h, jsOrUndefined]
  · intro r h
    simp [parseTenantCredentials, h, jsOrUndefined]
  · intro c h
    simp [validateCredentials, h]
  · intro c h
    by_cases ht : jsFalsyStr c.connectToken
    · exact ⟨"Missing X-1Password-Connect-Token header. Provide your Connect server token.",
        by simp [validateCredentials, ht]⟩
    · exact ⟨"Missing X-1Password-Connect-Host header. " ++
        "Provide your Connect server URL (e.g., http://localhost:8080).",
        by simp [validateCredentials, ht, h]⟩

/-- Witness for C10: an empty token header is rejected just like a missing
one. -/
theorem empty_header_like_absent_witness :
    (parseTenantCredentials ⟨"/mcp", "POST", some "", some "http://h"⟩).connectToken = none
    ∧ validateCredentials ⟨none, some "http://h"⟩
      = .error "Missing X-1Password-Connect-Token header. Provide your Connect server token." :=
  ⟨empty_header_like_absent.2.2.1 ⟨"/mcp", "POST", some "", some "http://h"⟩ rfl,
   empty_header_like_absent.2.2.2.2.1 ⟨none, some "http://h"⟩ rfl⟩

-- =============================================================================
-- C2 — status-code → taxonomy mapping (amended: the 60s default applies only
-- to an absent or empty Retry-After header; a present unparsable header
-- yields NaN)
-- =============================================================================

/-- C2 (amended): with a bound non-empty token, the request helper maps
401/403/404/429 to the correspondingly-typed taxonomy members, whose class
constructors fix code and retryable flag (`AUTHENTICATION_FAILED`/false,
`AUTHORIZATION_FAILED`/false, `NOT_FOUND`/false, `RATE_LIMIT_EXCEEDED`/true);
the 429 failure carries `parseInt` of the `Retry-After` header, with the
default of 60 applying exactly when the header is absent or empty — a present
non-numeric header yields `NaN` (`none`), not 60. -/
theorem request_status_taxonomy (c : TenantCredentials) (e : String) (o : RequestOptions)
    (resp : HttpResponse) (t : String)
    (htok : c.connectToken = some t) (hne : t.isEmpty = false) :
    (resp.status = 401 → request c e o resp
      = .error (.op (AuthenticationError "Authentication failed. Check your Connect token.")))
    ∧ (resp.status = 403 → request c e o resp
      = .error (.op (AuthorizationError
          "Authorization failed. Check your service account permissions.")))
    ∧ (resp.status = 404 → request c e o resp
      = .error (.op (NotFoundError "Resource" e)))
    ∧ (resp.status = 429 → request c e o resp
      = .error (.op (RateLimitError "Rate limit exceeded"
          (retryAfterSecondsOf resp.retryAfter))))
    ∧ (∀ m, (AuthenticationError m).code = "AUTHENTICATION_FAILED"
        ∧ (AuthenticationError m).retryable = false
        ∧ (AuthenticationError m).statusCode = some 401)
    ∧ (∀ m, (AuthorizationError m).code = "AUTHORIZATION_FAILED"
        ∧ (AuthorizationError m).retryable = false
        ∧ (AuthorizationError m).statusCode = some 403)
    ∧ (∀ a b, (NotFoundError a b).code = "NOT_FOUND"
        ∧ (NotFoundError a b).retryable = false
        ∧ (NotFoundError a b).statusCode = some 404)
    ∧ (∀ m v, (RateLimitError m v).code = "RATE_LIMIT_EXCEEDED"
        ∧ (RateLimitError m v).retryable = true
        ∧ (RateLimitError m v).statusCode = some 429
        ∧ (RateLimitError m v).retryAfterSeconds = some v)
    ∧ retryAfterSecondsOf none = some 60
    ∧ retryAfterSecondsOf (some "") = some 60
    ∧ (∀ s : String, s.isEmpty = false → retryAfterSecondsOf (some s) = jsParseInt s) := by
  have hbuild : ∀ ep, request c ep o resp = handleResponse resp ep := by
    intro ep
    simp [request, buildOutbound, getAuthHeaders, jsFalsyStr, htok, hne]
  refine ⟨?_, ?_, ?_, ?_, fun m => ⟨rfl, rfl, rfl⟩, fun m => ⟨rfl, rfl, rfl⟩,
    fun a b => ⟨rfl, rfl, rfl⟩, fun m v => ⟨rfl, rfl, rfl, rfl⟩, rfl, rfl, ?_⟩
  · intro hs
    rw [hbuild]
    simp [handleResponse, hs]
  · intro hs
    rw [hbuild]
    simp [handleResponse, hs]
  · intro hs
    rw [hbuild]
    simp [handleResponse, hs]
  · intro hs
    rw [hbuild]
    simp [handleResponse, hs]
  · intro s hs
    simp [retryAfterSecondsOf, hs]

/-- Witness for C2 (amended), at concrete inputs: a 429 with no `Retry-After`
header carries 60, and a 429 with the numeric header `120` carries 120. -/
theorem request_status_taxonomy_witness :
    (request ⟨some "tok", some "http://h"⟩ "/vaults" ⟨"GET", [], none⟩ ⟨429, none, none⟩
      = .error (.op (RateLimitError "Rate limit exceeded" (retryAfterSecondsOf none))))
    ∧ retryAfterSecondsOf none = some 60
    ∧ (request ⟨some "tok", some "http://h"⟩ "/vaults" ⟨"GET", [], none⟩ ⟨429, some "120", none⟩
      = .error (.op (RateLimitError "Rate limit exceeded" (retryAfterSecondsOf (some "120")))))
    ∧ retryAfterSecondsOf (some "120") = some 120
    ∧ (request ⟨some "tok", some "http://h"⟩ "/vaults" ⟨"GET", [], none⟩ ⟨401, none, none⟩
      = .error (.op (AuthenticationError "Authentication failed. Check your Connect token."))) :=
  ⟨(request_status_taxonomy ⟨some "tok", some "http://h"⟩ "/vaults" ⟨"GET", [], none⟩
      ⟨429, none, none⟩ "tok" rfl rfl).2.2.2.1 rfl,
   rfl,
   (request_status_taxonomy ⟨some "tok", some "http://h"⟩ "/vaults" ⟨"GET", [], none⟩
      ⟨429, some "120", none⟩ "tok" rfl rfl).2.2.2.1 rfl,
   rfl,
   (request_status_taxonomy ⟨some "tok", some "http://h"⟩ "/vaults" ⟨"GET", [], none⟩
      ⟨401, none, none⟩ "tok" rfl rfl).1 rfl⟩

/-- Counterexample to C2 as stated: on a 429 whose `Retry-After` header is the
present non-numeric string `soon`, the raised `RateLimitError` carries
`parseInt('soon', 10)`, i.e. `NaN` (modelled `none`) — not the claimed default
of 60 seconds. -/
theorem request_retry_after_counterexample :
    request ⟨some "tok", some "http://h"⟩ "/vaults" ⟨"GET", [], none⟩ ⟨429, some "soon", none⟩
      = .error (.op (RateLimitError "Rate limit exceeded" none))
    ∧ (RateLimitError "Rate limit exceeded" none).retryAfterSeconds = some none
    ∧ some (none : Option Int) ≠ some (some (60 : Int)) :=
  ⟨rfl, rfl, by decide⟩

-- =============================================================================
-- C8 — generic API-error fallback message
-- =============================================================================

/-- C8: a non-2xx status outside {401,403,404,429} with a body that is not
valid JSON, or is JSON carrying neither a `message` nor an `error` field,
raises `OnePasswordApiError` with exactly the literal message
`API error: {status}`; the `JSON.parse` failure is absorbed by the
`try`/`catch` (the model's error-message computation `errorMessageOf` is a
total function), so no secondary parse failure escapes. -/
theorem request_api_error_fallback (c : TenantCredentials) (e : String) (o : RequestOptions)
    (resp : HttpResponse) (t : String)
    (htok : c.connectToken = some t) (hne : t.isEmpty = false)
    (h401 : resp.status ≠ 401) (h403 : resp.status ≠ 403)
    (h404 : resp.status ≠ 404) (h429 : resp.status ≠ 429)
    (hok : ¬(200 ≤ resp.status ∧ resp.status ≤ 299))
    (hbody : resp.body = none ∨
      ∃ j, resp.body = some j ∧ lookupField j "message" = none ∧ lookupField j "error" = none) :
    request c e o resp
      = .error (.op (OnePasswordApiError ("API error: " ++ toString resp.status)
          (some resp.status) none false)) := by
  have hbuild : request c e o resp = handleResponse resp e := by
    simp [request, buildOutbound, getAuthHeaders, jsFalsyStr, htok, hne]
  rw [hbuild]
  have hmsg : errorMessageOf resp.body resp.status = "API error: " ++ toString resp.status := by
    rcases hbody with h | ⟨j, hj, hm, he⟩
    · simp [errorMessageOf, h]
    · simp [errorMessageOf, hj, truthyField, hm, he]
  simp [handleResponse, h401, h403, h404, h429, hok, hmsg]

/-- Witness for C8: a 500 with a non-JSON body produces the literal
`API error: 500`. -/
theorem request_api_error_fallback_witness :
    request ⟨some "tok", some "http://h"⟩ "/vaults" ⟨"GET", [], none⟩ ⟨500, none, none⟩
      = .error (.op (OnePasswordApiError ("API error: " ++ toString (500 : Nat))
          (some 500) none false)) :=
  request_api_error_fallback ⟨some "tok", some "http://h"⟩ "/vaults" ⟨"GET", [], none⟩
    ⟨500, none, none⟩ "tok" rfl rfl (by decide) (by decide) (by decide) (by decide)
    (by decide) (Or.inl rfl)

-- =============================================================================
-- C4 — testConnection reports instead of raising
-- =============================================================================

/-- C4: `testConnection` is a total function into `{connected, message}`
records — it never propagates a failure.  Every error raised by the
underlying `getHealth` request (`request('/health')`) is caught and reported
as `{connected: false, message: <failure text>}`, and a successful health
payload is reported as `{connected: true}` with a message interpolating the
backend's name and version. -/
theorem testConnection_reports (c : TenantCredentials) (resp : HttpResponse) :
    (∀ err, request c "/health" ⟨"GET", [], none⟩ resp = .error err →
      testConnection c resp = ⟨false, err.message⟩)
    ∧ (∀ h, request c "/health" ⟨"GET", [], none⟩ resp = .ok (some h) → h ≠ .null →
      testConnection c resp = ⟨true, connectedMessage h⟩) := by
  constructor
  · intro err herr
    simp [testConnection, herr]
  · intro h hok hnull
    rw [testConnection, hok]
    match h, hnull with
    | .bool b, _ => rfl
    | .num n, _ => rfl
    | .str s, _ => rfl
    | .arr xs, _ => rfl
    | .obj fs, _ => rfl

/-- Witness for C4: a healthy 200 response yields `connected: true` with the
name and version interpolated; a 401 yields `connected: false` carrying the
`AuthenticationError` message. -/
theorem testConnection_reports_witness :
    testConnection ⟨some "tok", some "http://h"⟩
      ⟨200, none, some (.obj [("name", .str "1Password Connect"), ("version", .str "1.5.7")])⟩
      = ⟨true, connectedMessage (.obj [("name", .str "1Password Connect"),
          ("version", .str "1.5.7")])⟩
    ∧ testConnection ⟨some "tok", some "http://h"⟩ ⟨401, none, none⟩
      = ⟨false, (JsError.op
          (AuthenticationError "Authentication failed. Check your Connect token.")).message⟩ :=
  ⟨(testConnection_reports ⟨some "tok", some "http://h"⟩
      ⟨200, none, some (.obj [("name", .str "1Password Connect"), ("version", .str "1.5.7")])⟩).2
      (.obj [("name", .str "1Password Connect"), ("version", .str "1.5.7")]) rfl (by simp),
   (testConnection_reports ⟨some "tok", some "http://h"⟩ ⟨401, none, none⟩).1
      (.op (AuthenticationError "Authentication failed. Check your Connect token.")) rfl⟩

-- =============================================================================

-- =============================================================================
-- C5 — listActivity pagination wrapper
-- =============================================================================

/-- C5: for any combination of `limit`/`offset` (present or absent) and any
array payload from the backend, the wrapper `listActivity` builds satisfies
`hasMore = false` and `count` equal to the length of the item array. -/
theorem listActivity_wrapper (c : TenantCredentials) (params : Option PaginationParams)
    (resp : HttpResponse) (w : PaginatedWrap)
    (hok : listActivity c params resp = .ok w) :
    w.hasMore = false ∧ ∀ xs, w.items = .arr xs → w.count = some xs.length := by
  rcases hreq : request c (activityEndpoint params) ⟨"GET", [], none⟩ resp with e | p
  · rw [listActivity, hreq] at hok
    simp at hok
  · rw [listActivity, hreq] at hok
    rcases p with _ | j
    · simp at hok
    · rcases j with _ | b | n | s | xs | fs
      · simp at hok
      · simp only [Except.ok.injEq] at hok
        subst hok
        exact ⟨rfl, fun xs h => by cases h⟩
      · simp only [Except.ok.injEq] at hok
        subst hok
        exact ⟨rfl, fun xs h => by cases h⟩
      · simp only [Except.ok.injEq] at hok
        subst hok
        exact ⟨rfl, fun xs h => by cases h⟩
      · simp only [Except.ok.injEq] at hok
        subst hok
        exact ⟨rfl, fun ys h => by cases h; rfl⟩
      · simp only [Except.ok.injEq] at hok
        subst hok
        exact ⟨rfl, fun xs h => by cases h⟩

/-- Witness for C5: a two-element activity array with `limit=5` is wrapped
with `count = 2` and `hasMore = false`. -/
theorem listActivity_wrapper_witness :
    (false : Bool) = false ∧
      ∀ xs, (Json.arr [.obj [("requestId", .str "r1")], .obj [("requestId", .str "r2")]])
        = .arr xs →
        (some (2 : Nat)) = some xs.length :=
  listActivity_wrapper ⟨some "tok", some "http://h"⟩ (some ⟨some 5, none⟩)
    ⟨200, none, some (.arr [.obj [("requestId", .str "r1")], .obj [("requestId", .str "r2")]])⟩
    ⟨.arr [.obj [("requestId", .str "r1")], .obj [("requestId", .str "r2")]], some 2, false⟩
    rfl

-- =============================================================================
-- C6 — createItem forces the vault reference
-- =============================================================================

/-- Entries before the first occurrence of a key are unaffected by
`jsSetField`, so the set value is what a later lookup finds even after
`undefined`-valued keys are dropped. -/
theorem lookupField_createItemBody (vaultId : String) (item : List (String × Option Json)) :
    lookupField (createItemBody vaultId item) "vault"
      = some (.obj [("id", .str vaultId)]) := by
  rw [createItemBody, lookupField]
  induction item with
  | nil => simp [jsSetField, dropUndefined, lookupField.go]
  | cons hd t ih =>
    obtain ⟨k, v⟩ := hd
    by_cases hk : k = "vault"
    · subst hk
      simp [jsSetField, dropUndefined, lookupField.go]
    · rcases v with _ | u
      · simpa [jsSetField, hk, dropUndefined] using ih
      · simpa [jsSetField, hk, dropUndefined, lookupField.go] using ih

/-- C6: the payload `createItem(vaultId, item)` serialises always carries
`vault: {id: vaultId}` — whatever vault reference (or none) the incoming item
carried is overridden by the spread — and the outbound POST body is exactly
the serialisation of that payload.  In particular the `1password_create_item`
tool input with `vaultId="v1"`, `title="Test"`, `category="LOGIN"` yields a
body whose vault reference is `{id: "v1"}`. -/
theorem createItem_vault_injected :
    (∀ (vaultId : String) (item : List (String × Option Json)),
      lookupField (createItemBody vaultId item) "vault"
        = some (.obj [("id", .str vaultId)]))
    ∧ (∀ (c : TenantCredentials) (vaultId : String) (item : List (String × Option Json))
        (r : OutboundRequest), createItemRequest c vaultId item = .ok r →
      r.method = "POST" ∧ r.body = some (jsonStringify (createItemBody vaultId item)))
    ∧ lookupField (createItemBody "v1"
        (createItemToolInput "v1" "Test" "LOGIN" none none none none none)) "vault"
      = some (.obj [("id", .str "v1")])
    ∧ lookupField (createItemBody "v1"
        (jsSetField (createItemToolInput "v1" "Test" "LOGIN" none none none none none)
          "vault" (some (.obj [("id", .str "evil")])))) "vault"
      = some (.obj [("id", .str "v1")]) := by
  refine ⟨lookupField_createItemBody, ?_, lookupField_createItemBody _ _,
    lookupField_createItemBody _ _⟩
  intro c vaultId item r hok
  rw [createItemRequest, buildOutbound] at hok
  rcases hauth : getAuthHeaders c with e | auth
  · rw [hauth] at hok
    cases hok
  · rw [hauth] at hok
    simp only [Except.ok.injEq] at hok
    subst hok
    exact ⟨rfl, rfl⟩

/-- Witness for C6: the concrete create-item call of the scenario. -/
theorem createItem_vault_injected_witness :
    "POST" = "POST"
    ∧ (some (jsonStringify (createItemBody "v1"
        (createItemToolInput "v1" "Test" "LOGIN" none none none none none)))
      = some (jsonStringify (createItemBody "v1"
        (createItemToolInput "v1" "Test" "LOGIN" none none none none none)))) :=
  createItem_vault_injected.2.1 ⟨some "tok", some "http://h"⟩ "v1"
    (createItemToolInput "v1" "Test" "LOGIN" none none none none none)
    ⟨"http://h/v1/vaults/v1/items", "POST",
      [("Authorization", "Bearer tok"), ("Content-Type", "application/json")],
      some (jsonStringify (createItemBody "v1"
        (createItemToolInput "v1" "Test" "LOGIN" none none none none none)))⟩
    rfl

-- =============================================================================
-- C7 — patchItem forwards the operation list verbatim
-- =============================================================================

/-- C7: a successful `patchItem` call issues a PATCH whose `Content-Type` is
`application/json-patch+json` (the per-call header overrides the default via
the spread) and whose body is exactly `JSON.stringify(operations)` — the
operation array is embedded unchanged, so no element is added, removed,
reordered or modified. -/
theorem patchItem_forwards_operations (c : TenantCredentials) (vaultId itemId : String)
    (operations : List Json) (r : OutboundRequest)
    (hok : patchItemRequest c vaultId itemId operations = .ok r) :
    r.method = "PATCH"
    ∧ jsLookup r.headers "Content-Type" = some "application/json-patch+json"
    ∧ r.body = some (jsonStringify (.arr operations)) := by
  rw [patchItemRequest, buildOutbound] at hok
  rcases hauth : getAuthHeaders c with e | auth
  · rw [hauth] at hok
    cases hok
  · rw [hauth] at hok
    simp only [Except.ok.injEq] at hok
    subst hok
    refine ⟨rfl, ?_, rfl⟩
    exact jsLookup_mergeHeaders_override auth "Content-Type"
      "application/json-patch+json" [] (by simp)

/-- Witness for C7: the scenario's single `replace` operation is forwarded as
exactly that one-element array. -/
theorem patchItem_forwards_operations_witness :
    "PATCH" = "PATCH"
    ∧ jsLookup [("Authorization", "Bearer tok"), ("Content-Type", "application/json-patch+json")]
        "Content-Type" = some "application/json-patch+json"
    ∧ (some (jsonStringify (.arr [.obj [("op", .str "replace"), ("path", .str "/title"),
          ("value", .str "New")]]))
      = some (jsonStringify (.arr [.obj [("op", .str "replace"), ("path", .str "/title"),
          ("value", .str "New")]]))) :=
  patchItem_forwards_operations ⟨some "tok", some "http://h"⟩ "v1" "i1"
    [.obj [("op", .str "replace"), ("path", .str "/title"), ("value", .str "New")]]
    ⟨"http://h/v1/vaults/v1/items/i1", "PATCH",
      [("Authorization", "Bearer tok"), ("Content-Type", "application/json-patch+json")],
      some (jsonStringify (.arr [.obj [("op", .str "replace"), ("path", .str "/title"),
        ("value", .str "New")]]))⟩
    rfl

-- =============================================================================
-- C9 — pretty JSON serialisation (JSON.stringify(data, null, 2)) and a
-- verified model of JSON.parse
-- =============================================================================

/-- The indentation run `JSON.stringify` emits at nesting depth `d`. -/
def spacesN (n : Nat) : List Char := List.replicate n ' '

mutual

/-- Model of `JSON.stringify(v, null, 2)` at current indent `d`: primitives compact,
empty containers compact, non-empty containers one element per line with the
indent growing by two spaces. -/
def printVal (d : Nat) : Json → List Char
  | .null => ['n', 'u', 'l', 'l']
  | .bool b => cond b ['t', 'r', 'u', 'e'] ['f', 'a', 'l', 's', 'e']
  | .num n => printInt n
  | .str s => printString s
  | .arr [] => ['[', ']']
  | .arr (x :: xs) => '[' :: printElems d (x :: xs) ++ '\n' :: spacesN d ++ [']']
  | .obj [] => ['{', '}']
  | .obj (f :: fs) => '{' :: printFields d (f :: fs) ++ '\n' :: spacesN d ++ ['}']

def printElems (d : Nat) : List Json → List Char
  | [] => []
  | [x] => '\n' :: spacesN (d + 2) ++ printVal (d + 2) x
  | x :: xs => '\n' :: spacesN (d + 2) ++ printVal (d + 2) x ++ ',' :: printElems d xs

def printFields (d : Nat) : List (String × Json) → List Char
  | [] => []
  | [(k, v)] => '\n' :: spacesN (d + 2) ++ printString k ++ ':' :: ' ' :: printVal (d + 2) v
  | (k, v) :: fs => '\n' :: spacesN (d + 2) ++ printString k ++ ':' :: ' ' :: printVal (d + 2) v
      ++ ',' :: printFields d fs

end

/-- Model of `JSON.stringify(data, null, 2)` as a string — the text `formatResponse`
emits in structured (json) mode. -/
def prettyStringify (v : Json) : String := String.mk (printVal 0 v)

/-- JSON insignificant whitespace. -/
def isJsonWs (c : Char) : Bool := c = ' ' || c = '\t' || c = '\n' || c = '\r'

/-- Skip insignificant whitespace. -/
def skipWs (cs : List Char) : List Char := cs.dropWhile isJsonWs

/-- Value of one hexadecimal digit. -/
def hexVal (c : Char) : Option Nat :=
  if 48 ≤ c.toNat ∧ c.toNat ≤ 57 then some (c.toNat - 48)
  else if 97 ≤ c.toNat ∧ c.toNat ≤ 102 then some (c.toNat - 87)
  else if 65 ≤ c.toNat ∧ c.toNat ≤ 70 then some (c.toNat - 55)
  else none

/-- The single-character escapes `JSON.parse` accepts after a backslash. -/
def unescapeChar (e : Char) : Option Char :=
  if e = '"' then some '"'
  else if e = '\\' then some '\\'
  else if e = '/' then some '/'
  else if e = 'n' then some '\n'
  else if e = 't' then some '\t'
  else if e = 'r' then some '\r'
  else if e = 'b' then some (Char.ofNat 8)
  else if e = 'f' then some (Char.ofNat 12)
  else none

/-- Parse the remainder of a JSON string literal (after the opening quote),
returning the decoded characters and the input following the closing quote.
A `\\u` sequence with fewer than four hex digits after it falls through to the
single-character-escape case with `e = u`, which rejects, exactly as the
if-based formulation would. -/
def parseStringBody : List Char → Option (List Char × List Char)
  | [] => none
  | '"' :: rest => some ([], rest)
  | '\\' :: 'u' :: h1 :: h2 :: h3 :: h4 :: rest2 =>
    match hexVal h1, hexVal h2, hexVal h3, hexVal h4 with
    | some a, some b, some c2, some d2 =>
      (parseStringBody rest2).map fun p =>
        (Char.ofNat (((a * 16 + b) * 16 + c2) * 16 + d2) :: p.1, p.2)
    | _, _, _, _ => none
  | '\\' :: e :: rest1 =>
    match unescapeChar e with
    | some c2 => (parseStringBody rest1).map fun p => (c2 :: p.1, p.2)
    | none => none
  | ['\\'] => none
  | c :: rest =>
    if c.toNat < 32 then none
    else (parseStringBody rest).map fun p => (c :: p.1, p.2)

/-- Leading decimal digits. -/
def leadingDigits (cs : List Char) : List Char := cs.takeWhile Char.isDigit

/-- Numeric value of a digit list. -/
def digitsVal (ds : List Char) : Nat := ds.foldl (fun a c => 10 * a + (c.toNat - 48)) 0

/-- Parse a non-empty run of decimal digits. -/
def parseDigits (cs : List Char) : Option (Nat × List Char) :=
  let ds := leadingDigits cs
  if ds.isEmpty then none else some (digitsVal ds, cs.dropWhile Char.isDigit)

mutual

/-- A fuel-indexed recursive-descent model of `JSON.parse` for one value:
whitespace, `null`, booleans, integers, strings, arrays, objects. -/
def parseVal : Nat → List Char → Option (Json × List Char)
  | 0, _ => none
  | f + 1, cs =>
    match skipWs cs with
    | [] => none
    | c :: rest =>
      if c.isDigit then
        (parseDigits (c :: rest)).map fun p => (.num (p.1 : Int), p.2)
      else if c = '-' then
        (parseDigits rest).map fun p => (.num (-(p.1 : Int)), p.2)
      else if c = '"' then
        (parseStringBody rest).map fun p => (.str (String.mk p.1), p.2)
      else if c = '[' then
        match skipWs rest with
        | [] => none
        | d :: rest2 =>
          if d = ']' then some (.arr [], rest2)
          else (parseElems f rest).map fun p => (.arr p.1, p.2)
      else if c = '{' then
        match skipWs rest with
        | [] => none
        | d :: rest2 =>
          if d = '}' then some (.obj [], rest2)
          else (parseFields f rest).map fun p => (.obj p.1, p.2)
      else if c = 'n' then
        match rest with
        | 'u' :: 'l' :: 'l' :: rest2 => some (.null, rest2)
        | _ => none
      else if c = 't' then
        match rest with
        | 'r' :: 'u' :: 'e' :: rest2 => some (.bool true, rest2)
        | _ => none
      else if c = 'f' then
        match rest with
        | 'a' :: 'l' :: 's' :: 'e' :: rest2 => some (.bool false, rest2)
        | _ => none
      else none

/-- Elements of a non-empty array, up to and including the closing bracket. -/
def parseElems : Nat → List Char → Option (List Json × List Char)
  | 0, _ => none
  | f + 1, cs =>
    match parseVal f cs with
    | none => none
    | some (v, cs1) =>
      match skipWs cs1 with
      | [] => none
      | d :: cs2 =>
        if d = ',' then (parseElems f cs2).map fun p => (v :: p.1, p.2)
        else if d = ']' then some ([v], cs2)
        else none

/-- Fields of a non-empty object, up to and including the closing brace. -/
def parseFields : Nat → List Char → Option (List (String × Json) × List Char)
  | 0, _ => none
  | f + 1, cs =>
    match skipWs cs with
    | '"' :: cs1 =>
      match parseStringBody cs1 with
      | none => none
      | some (k, cs2) =>
        match skipWs cs2 with
        | ':' :: cs3 =>
          match parseVal f cs3 with
          | none => none
          | some (v, cs4) =>
            match skipWs cs4 with
            | [] => none
            | d :: cs5 =>
              if d = ',' then (parseFields f cs5).map fun p => ((String.mk k, v) :: p.1, p.2)
              else if d = '}' then some ([(String.mk k, v)], cs5)
              else none
        | _ => none
    | _ => none

end

/-- Model of `JSON.parse(s)`: one value, possibly surrounded by whitespace. -/
def parseJson (s : String) : Option Json :=
  match parseVal (s.toList.length + 1) s.toList with
  | some (v, rest) => if (skipWs rest).isEmpty then some v else none
  | none => none

mutual

/-- Fuel measure for the parser: containers weigh two units so that one unit
pays for entering the element list at the same recursion depth. -/
def nodes : Json → Nat
  | .null => 1
  | .bool _ => 1
  | .num _ => 1
  | .str _ => 1
  | .arr xs => 2 + nodesList xs
  | .obj fs => 2 + nodesFields fs

def nodesList : List Json → Nat
  | [] => 0
  | x :: xs => nodes x + nodesList xs

def nodesFields : List (String × Json) → Nat
  | [] => 0
  | (_, v) :: fs => nodes v + nodesFields fs

end

theorem nodes_pos (v : Json) : 1 ≤ nodes v := by
  cases v <;> simp [nodes] <;> omega

-- Whitespace behaviour of the parser front end --

theorem skipWs_cons_of_ws (c : Char) (cs : List Char) (h : isJsonWs c = true) :
    skipWs (c :: cs) = skipWs cs := by
  simp [skipWs, List.dropWhile, h]

theorem skipWs_cons_of_not_ws (c : Char) (cs : List Char) (h : isJsonWs c = false) :
    skipWs (c :: cs) = c :: cs := by
  simp [skipWs, List.dropWhile, h]

theorem skipWs_spacesN (n : Nat) (cs : List Char) : skipWs (spacesN n ++ cs) = skipWs cs := by
  induction n with
  | zero => rfl
  | succ n ih =>
    show skipWs (' ' :: (spacesN n ++ cs)) = skipWs cs
    rw [skipWs_cons_of_ws _ _ (by decide), ih]

theorem skipWs_newline (cs : List Char) : skipWs ('\n' :: cs) = skipWs cs :=
  skipWs_cons_of_ws _ _ (by decide)

theorem skipWs_idem (cs : List Char) : skipWs (skipWs cs) = skipWs cs := by
  induction cs with
  | nil => rfl
  | cons c t ih =>
    by_cases h : isJsonWs c
    · rw [skipWs_cons_of_ws _ _ h, ih]
    · rw [skipWs_cons_of_not_ws _ _ (by simpa using h),
        skipWs_cons_of_not_ws _ _ (by simpa using h)]

/-- The parser `parseVal` looks at its input only through `skipWs`. -/
theorem parseVal_congr (f : Nat) (cs1 cs2 : List Char) (h : skipWs cs1 = skipWs cs2) :
    parseVal f cs1 = parseVal f cs2 := by
  cases f with
  | zero => rfl
  | succ f => rw [parseVal, parseVal, h]

-- String-literal escaping round trip --

theorem hexVal_hexDigitLower (n : Nat) (h : n < 16) : hexVal (hexDigitLower n) = some n := by
  interval_cases n <;> decide

/-- The generic character case of `parseStringBody` for a printable
non-special character. -/
theorem parseStringBody_plain (c : Char) (cs : List Char)
    (h1 : ¬c = '"') (h2 : ¬c = '\\') (h3 : ¬c.toNat < 32) :
    parseStringBody (c :: cs) = (parseStringBody cs).map fun p => (c :: p.1, p.2) := by
  rcases cs with _ | ⟨e, cs1⟩
  · simp [parseStringBody, h1, h2, h3]
  · simp [parseStringBody, h1, h2, h3]

/-- Parsing undoes the character-level escaping `JSON.stringify`
applies. -/
theorem parseStringBody_escape (l : List Char) (rest : List Char) :
    parseStringBody (escapeList l ++ '"' :: rest) = some (l, rest) := by
  induction l with
  | nil => rfl
  | cons c t ih =>
    show parseStringBody ((escapeChar c ++ escapeList t) ++ '"' :: rest) = _
    rw [escapeChar]
    by_cases h1 : c = '"'
    · subst h1
      show parseStringBody ('\\' :: '"' :: (escapeList t ++ '"' :: rest)) = _
      rw [show parseStringBody ('\\' :: '"' :: (escapeList t ++ '"' :: rest))
          = (parseStringBody (escapeList t ++ '"' :: rest)).map (fun p => ('"' :: p.1, p.2))
        from rfl, ih]
      rfl
    · rw [if_neg h1]
      by_cases h2 : c = '\\'
      · subst h2
        show parseStringBody ('\\' :: '\\' :: (escapeList t ++ '"' :: rest)) = _
        rw [show parseStringBody ('\\' :: '\\' :: (escapeList t ++ '"' :: rest))
            = (parseStringBody (escapeList t ++ '"' :: rest)).map (fun p => ('\\' :: p.1, p.2))
          from rfl, ih]
        rfl
      · rw [if_neg h2]
        by_cases h3 : c = '\n'
        · subst h3
          show parseStringBody ('\\' :: 'n' :: (escapeList t ++ '"' :: rest)) = _
          rw [show parseStringBody ('\\' :: 'n' :: (escapeList t ++ '"' :: rest))
              = (parseStringBody (escapeList t ++ '"' :: rest)).map (fun p => ('\n' :: p.1, p.2))
            from rfl, ih]
          rfl
        · rw [if_neg h3]
          by_cases h4 : c = '\r'
          · subst h4
            show parseStringBody ('\\' :: 'r' :: (escapeList t ++ '"' :: rest)) = _
            rw [show parseStringBody ('\\' :: 'r' :: (escapeList t ++ '"' :: rest))
                = (parseStringBody (escapeList t ++ '"' :: rest)).map (fun p => ('\r' :: p.1, p.2))
              from rfl, ih]
            rfl
          · rw [if_neg h4]
            by_cases h5 : c = '\t'
            · subst h5
              show parseStringBody ('\\' :: 't' :: (escapeList t ++ '"' :: rest)) = _
              rw [show parseStringBody ('\\' :: 't' :: (escapeList t ++ '"' :: rest))
                  = (parseStringBody (escapeList t ++ '"' :: rest)).map
                      (fun p => ('\t' :: p.1, p.2))
                from rfl, ih]
              rfl
            · rw [if_neg h5]
              by_cases h6 : c.toNat = 8
              · rw [if_pos h6]
                have hc : c = Char.ofNat 8 := by
                  have h8 := Char.ofNat_toNat c
                  rw [h6] at h8
                  exact h8.symm
                show parseStringBody ('\\' :: 'b' :: (escapeList t ++ '"' :: rest)) = _
                rw [show parseStringBody ('\\' :: 'b' :: (escapeList t ++ '"' :: rest))
                    = (parseStringBody (escapeList t ++ '"' :: rest)).map
                        (fun p => (Char.ofNat 8 :: p.1, p.2))
                  from rfl, ih, hc]
                rfl
              · rw [if_neg h6]
                by_cases h7 : c.toNat = 12
                · rw [if_pos h7]
                  have hc : c = Char.ofNat 12 := by
                    have h8 := Char.ofNat_toNat c
                    rw [h7] at h8
                    exact h8.symm
                  show parseStringBody ('\\' :: 'f' :: (escapeList t ++ '"' :: rest)) = _
                  rw [show parseStringBody ('\\' :: 'f' :: (escapeList t ++ '"' :: rest))
                      = (parseStringBody (escapeList t ++ '"' :: rest)).map
                          (fun p => (Char.ofNat 12 :: p.1, p.2))
                    from rfl, ih, hc]
                  rfl
                · rw [if_neg h7]
                  by_cases h8 : c.toNat < 32
                  · rw [if_pos h8]
                    have hdiv : c.toNat / 16 < 16 := by omega
                    have hmod : c.toNat % 16 < 16 := Nat.mod_lt _ (by omega)
                    show parseStringBody ('\\' :: 'u' :: '0' :: '0'
                        :: hexDigitLower (c.toNat / 16) :: hexDigitLower (c.toNat % 16)
                        :: (escapeList t ++ '"' :: rest)) = _
                    rw [parseStringBody, hexVal_hexDigitLower _ hdiv,
                      hexVal_hexDigitLower _ hmod]
                    have h0 : hexVal '0' = some 0 := by decide
                    rw [h0]
                    show (parseStringBody (escapeList t ++ '"' :: rest)).map _ = _
                    rw [ih]
                    show some (Char.ofNat (((0 * 16 + 0) * 16 + c.toNat / 16) * 16
                      + c.toNat % 16) :: t, rest) = _
                    have hval : ((0 * 16 + 0) * 16 + c.toNat / 16) * 16 + c.toNat % 16
                        = c.toNat := by omega
                    rw [hval, Char.ofNat_toNat]
                  · rw [if_neg h8]
                    show parseStringBody (c :: (escapeList t ++ '"' :: rest)) = _
                    rw [parseStringBody_plain c _ h1 h2 h8, ih]
                    rfl

-- Decimal digits round trip --

theorem digitChar_isDigit (k : Nat) (h : k < 10) : (Char.ofNat (48 + k)).isDigit = true := by
  interval_cases k <;> decide

theorem digitChar_toNat (k : Nat) (h : k < 10) : (Char.ofNat (48 + k)).toNat = 48 + k := by
  interval_cases k <;> decide

theorem printNat_ne_nil (m : Nat) : printNat m ≠ [] := by
  rw [printNat]
  by_cases h : m < 10 <;> simp [h]

theorem printNat_all_digits (m : Nat) : ∀ ch ∈ printNat m, ch.isDigit = true := by
  induction m using Nat.strong_induction_on with
  | _ m ih =>
    rw [printNat]
    by_cases h : m < 10
    · simp only [h, dif_pos]
      intro ch hch
      simp at hch
      subst hch
      exact digitChar_isDigit m h
    · simp only [h, dif_neg, not_false_iff]
      intro ch hch
      rcases List.mem_append.mp hch with hl | hr
      · exact ih (m / 10) (Nat.div_lt_self (by omega) (by omega)) ch hl
      · simp at hr
        subst hr
        exact digitChar_isDigit (m % 10) (Nat.mod_lt _ (by omega))

theorem digitsVal_append_one (l : List Char) (d : Char) :
    digitsVal (l ++ [d]) = 10 * digitsVal l + (d.toNat - 48) := by
  simp [digitsVal, List.foldl_append]

theorem digitsVal_printNat (m : Nat) : digitsVal (printNat m) = m := by
  induction m using Nat.strong_induction_on with
  | _ m ih =>
    rw [printNat]
    by_cases h : m < 10
    · simp only [h, dif_pos]
      simp [digitsVal, digitChar_toNat m h]
    · simp only [h, dif_neg, not_false_iff]
      rw [digitsVal_append_one, ih (m / 10) (Nat.div_lt_self (by omega) (by omega)),
        digitChar_toNat (m % 10) (Nat.mod_lt _ (by omega))]
      omega

/-- Predicate `headNot p l` holds when `l` is empty or its head fails `p`. -/
def headNot {α : Type} (p : α → Bool) : List α → Prop
  | [] => True
  | c :: _ => p c = false

/-- The head of the input after a printed number must not be a digit for the
parse to stop at the right place. -/
def headNotDigit (cs : List Char) : Prop := headNot Char.isDigit cs

theorem takeWhile_append_all {α : Type} (p : α → Bool) (l1 l2 : List α)
    (h1 : ∀ x ∈ l1, p x = true) (h2 : headNot p l2) :
    (l1 ++ l2).takeWhile p = l1 ∧ (l1 ++ l2).dropWhile p = l2 := by
  induction l1 with
  | nil =>
    rcases l2 with _ | ⟨c, t⟩
    · exact ⟨rfl, rfl⟩
    · simp only [List.nil_append, List.takeWhile, List.dropWhile]
      rw [show p c = false from h2]
      exact ⟨rfl, rfl⟩
  | cons a l ih =>
    have ha : p a = true := h1 a (by simp)
    have hrest : ∀ x ∈ l, p x = true := fun x hx => h1 x (by simp [hx])
    obtain ⟨ht, hd⟩ := ih hrest
    constructor
    · rw [List.cons_append, List.takeWhile_cons, ha]
      simp [ht]
    · rw [List.cons_append, List.dropWhile_cons, ha]
      simp [hd]

theorem parseDigits_printNat (m : Nat) (rest : List Char) (h : headNotDigit rest) :
    parseDigits (printNat m ++ rest) = some (m, rest) := by
  have hall := printNat_all_digits m
  obtain ⟨ht, hd⟩ := takeWhile_append_all Char.isDigit (printNat m) rest hall h
  rw [parseDigits]
  simp only [leadingDigits, ht, hd]
  rw [if_neg (by simpa using printNat_ne_nil m), digitsVal_printNat]

-- Head-dispatch facts for parseVal --

theorem not_ws_of_isDigit (c : Char) (h : c.isDigit = true) : isJsonWs c = false := by
  rw [isJsonWs]
  by_cases h1 : c = ' '
  · subst h1; exact absurd h (by decide)
  · by_cases h2 : c = '\t'
    · subst h2; exact absurd h (by decide)
    · by_cases h3 : c = '\n'
      · subst h3; exact absurd h (by decide)
      · by_cases h4 : c = '\r'
        · subst h4; exact absurd h (by decide)
        · simp [h1, h2, h3, h4]

theorem ne_of_isDigit_right (c c' : Char) (h : c.isDigit = true) (h' : c'.isDigit = false) :
    c ≠ c' := by
  intro he
  subst he
  rw [h] at h'
  cases h'

theorem parseVal_null (f : Nat) (cs : List Char) :
    parseVal (f + 1) ('n' :: 'u' :: 'l' :: 'l' :: cs) = some (.null, cs) := rfl

theorem parseVal_true (f : Nat) (cs : List Char) :
    parseVal (f + 1) ('t' :: 'r' :: 'u' :: 'e' :: cs) = some (.bool true, cs) := rfl

theorem parseVal_false (f : Nat) (cs : List Char) :
    parseVal (f + 1) ('f' :: 'a' :: 'l' :: 's' :: 'e' :: cs) = some (.bool false, cs) := rfl

theorem parseVal_neg (f : Nat) (cs : List Char) :
    parseVal (f + 1) ('-' :: cs)
      = (parseDigits cs).map fun p => (Json.num (-(p.1 : Int)), p.2) := rfl

theorem parseVal_quote (f : Nat) (cs : List Char) :
    parseVal (f + 1) ('"' :: cs)
      = (parseStringBody cs).map fun p => (Json.str (String.mk p.1), p.2) := rfl

theorem parseVal_lbracket (f : Nat) (cs : List Char) :
    parseVal (f + 1) ('[' :: cs)
      = match skipWs cs with
        | [] => none
        | d :: rest2 =>
          if d = ']' then some (.arr [], rest2)
          else (parseElems f cs).map fun p => (Json.arr p.1, p.2) := rfl

theorem parseVal_lbrace (f : Nat) (cs : List Char) :
    parseVal (f + 1) ('{' :: cs)
      = match skipWs cs with
        | [] => none
        | d :: rest2 =>
          if d = '}' then some (.obj [], rest2)
          else (parseFields f cs).map fun p => (Json.obj p.1, p.2) := rfl

theorem parseVal_digit (f : Nat) (c0 : Char) (cs : List Char) (hdig : c0.isDigit = true) :
    parseVal (f + 1) (c0 :: cs)
      = (parseDigits (c0 :: cs)).map fun p => (Json.num (p.1 : Int), p.2) := by
  rw [parseVal, skipWs_cons_of_not_ws _ _ (not_ws_of_isDigit _ hdig)]
  simp [hdig]

-- Heads of printed values --

theorem printNat_head (m : Nat) :
    ∃ c0 cs0, printNat m = c0 :: cs0 ∧ c0.isDigit = true := by
  rcases h : printNat m with _ | ⟨c0, cs0⟩
  · exact absurd h (printNat_ne_nil m)
  · exact ⟨c0, cs0, rfl, printNat_all_digits m c0 (by rw [h]; simp)⟩

/-- Every printed value starts with a non-whitespace character that is
neither a closing bracket nor a closing brace. -/
theorem printVal_head (d : Nat) (v : Json) :
    ∃ c0 cs0, printVal d v = c0 :: cs0 ∧ isJsonWs c0 = false ∧ c0 ≠ ']' ∧ c0 ≠ '}' := by
  cases v with
  | null => exact ⟨'n', _, rfl, by decide, by decide, by decide⟩
  | bool b =>
    cases b
    · exact ⟨'f', _, rfl, by decide, by decide, by decide⟩
    · exact ⟨'t', _, rfl, by decide, by decide, by decide⟩
  | num n =>
    show ∃ c0 cs0, printInt n = c0 :: cs0 ∧ _
    rw [printInt]
    by_cases hneg : n < 0
    · rw [if_pos hneg]
      exact ⟨'-', _, rfl, by decide, by decide, by decide⟩
    · rw [if_neg hneg]
      obtain ⟨c0, cs0, hp, hdig⟩ := printNat_head n.natAbs
      exact ⟨c0, cs0, hp, not_ws_of_isDigit _ hdig,
        ne_of_isDigit_right _ _ hdig (by decide), ne_of_isDigit_right _ _ hdig (by decide)⟩
  | str s => exact ⟨'"', _, rfl, by decide, by decide, by decide⟩
  | arr xs =>
    cases xs with
    | nil => exact ⟨'[', _, rfl, by decide, by decide, by decide⟩
    | cons x t => exact ⟨'[', _, rfl, by decide, by decide, by decide⟩
  | obj fs =>
    cases fs with
    | nil => exact ⟨'{', _, rfl, by decide, by decide, by decide⟩
    | cons f t => exact ⟨'{', _, rfl, by decide, by decide, by decide⟩

-- Step lemmas assembling the container parses --

theorem parseVal_lbracket_fallback (f : Nat) (cs : List Char) (c0 : Char) (cs' : List Char)
    (hsk : skipWs cs = c0 :: cs') (hne : c0 ≠ ']') :
    parseVal (f + 1) ('[' :: cs) = (parseElems f cs).map fun p => (Json.arr p.1, p.2) := by
  rw [parseVal_lbracket, hsk]
  simp [hne]

theorem parseVal_lbrace_fallback (f : Nat) (cs : List Char) (c0 : Char) (cs' : List Char)
    (hsk : skipWs cs = c0 :: cs') (hne : c0 ≠ '}') :
    parseVal (f + 1) ('{' :: cs) = (parseFields f cs).map fun p => (Json.obj p.1, p.2) := by
  rw [parseVal_lbrace, hsk]
  simp [hne]

theorem parseElems_last (f : Nat) (cs : List Char) (x : Json) (R cs2 : List Char)
    (hval : parseVal f cs = some (x, R)) (hsk : skipWs R = ']' :: cs2) :
    parseElems (f + 1) cs = some ([x], cs2) := by
  rw [parseElems]
  simp [hval, hsk]

theorem parseElems_more (f : Nat) (cs : List Char) (x : Json) (R cs2 : List Char)
    (hval : parseVal f cs = some (x, R)) (hsk : skipWs R = ',' :: cs2) :
    parseElems (f + 1) cs = (parseElems f cs2).map fun p => (x :: p.1, p.2) := by
  rw [parseElems]
  simp [hval, hsk]

theorem parseFields_last (f : Nat) (cs cs1 : List Char) (k : List Char) (cs2 cs3 : List Char)
    (v : Json) (cs4 cs5 : List Char)
    (h1 : skipWs cs = '"' :: cs1) (h2 : parseStringBody cs1 = some (k, cs2))
    (h3 : skipWs cs2 = ':' :: cs3) (h4 : parseVal f cs3 = some (v, cs4))
    (h5 : skipWs cs4 = '}' :: cs5) :
    parseFields (f + 1) cs = some ([(String.mk k, v)], cs5) := by
  rw [parseFields]
  simp [h1, h2, h3, h4, h5]

theorem parseFields_more (f : Nat) (cs cs1 : List Char) (k : List Char) (cs2 cs3 : List Char)
    (v : Json) (cs4 cs5 : List Char)
    (h1 : skipWs cs = '"' :: cs1) (h2 : parseStringBody cs1 = some (k, cs2))
    (h3 : skipWs cs2 = ':' :: cs3) (h4 : parseVal f cs3 = some (v, cs4))
    (h5 : skipWs cs4 = ',' :: cs5) :
    parseFields (f + 1) cs = (parseFields f cs5).map fun p => ((String.mk k, v) :: p.1, p.2) := by
  rw [parseFields]
  simp [h1, h2, h3, h4, h5]

-- Heads of printed element and field lists --

theorem skipWs_printElems_head (d : Nat) (x : Json) (t : List Json) (R : List Char) :
    ∃ c0 cs', skipWs (printElems d (x :: t) ++ R) = c0 :: cs' ∧ c0 ≠ ']' ∧ c0 ≠ '}' := by
  obtain ⟨c0, cs0, hp, hws, h1, h2⟩ := printVal_head (d + 2) x
  cases t with
  | nil =>
    refine ⟨c0, cs0 ++ R, ?_, h1, h2⟩
    rw [printElems, hp]
    simp only [List.cons_append, List.nil_append, List.append_assoc]
    rw [skipWs_newline, skipWs_spacesN, skipWs_cons_of_not_ws _ _ hws]
  | cons y t2 =>
    refine ⟨c0, cs0 ++ (',' :: (printElems d (y :: t2) ++ R)), ?_, h1, h2⟩
    rw [printElems, hp]
    · simp only [List.cons_append, List.nil_append, List.append_assoc]
      rw [skipWs_newline, skipWs_spacesN, skipWs_cons_of_not_ws _ _ hws]
    · simp

theorem skipWs_printFields_head (d : Nat) (kv : String × Json) (t : List (String × Json))
    (R : List Char) :
    ∃ cs', skipWs (printFields d (kv :: t) ++ R) = '"' :: cs' := by
  obtain ⟨k, v⟩ := kv
  cases t with
  | nil =>
    refine ⟨escapeList k.toList ++ ('"' :: (':' :: (' ' :: (printVal (d + 2) v ++ R)))), ?_⟩
    rw [printFields, printString]
    simp only [List.cons_append, List.nil_append, List.append_assoc]
    rw [skipWs_newline, skipWs_spacesN, skipWs_cons_of_not_ws _ _ (by decide)]
  | cons kv2 t2 =>
    refine ⟨escapeList k.toList ++ ('"' :: (':' :: (' ' :: (printVal (d + 2) v
      ++ (',' :: (printFields d (kv2 :: t2) ++ R)))))), ?_⟩
    rw [printFields, printString]
    · simp only [List.cons_append, List.nil_append, List.append_assoc]
      rw [skipWs_newline, skipWs_spacesN, skipWs_cons_of_not_ws _ _ (by decide)]
    · simp

theorem skipWs_printVal_append (d : Nat) (x : Json) (R : List Char) :
    skipWs (printVal d x ++ R) = printVal d x ++ R := by
  obtain ⟨c0, cs0, hp, hws, _, _⟩ := printVal_head d x
  rw [hp, List.cons_append, skipWs_cons_of_not_ws _ _ hws]

theorem skipWs_printElems_single (d : Nat) (x : Json) (R : List Char) :
    skipWs (printElems d [x] ++ R) = printVal (d + 2) x ++ R := by
  rw [printElems]
  simp only [List.cons_append, List.nil_append, List.append_assoc]
  rw [skipWs_newline, skipWs_spacesN, skipWs_printVal_append]

theorem skipWs_printElems_cons (d : Nat) (x y : Json) (t2 : List Json) (R : List Char) :
    skipWs (printElems d (x :: y :: t2) ++ R)
      = printVal (d + 2) x ++ (',' :: (printElems d (y :: t2) ++ R)) := by
  rw [printElems]
  · simp only [List.cons_append, List.nil_append, List.append_assoc]
    rw [skipWs_newline, skipWs_spacesN, skipWs_printVal_append]
  · simp

theorem skipWs_printFields_single (d : Nat) (k : String) (v : Json) (R : List Char) :
    skipWs (printFields d [(k, v)] ++ R)
      = '"' :: (escapeList k.toList ++ ('"' :: (':' :: (' ' :: (printVal (d + 2) v ++ R))))) := by
  rw [printFields, printString]
  simp only [List.cons_append, List.nil_append, List.append_assoc]
  rw [skipWs_newline, skipWs_spacesN, skipWs_cons_of_not_ws _ _ (by decide)]

theorem skipWs_printFields_cons (d : Nat) (k : String) (v : Json) (kv2 : String × Json)
    (t2 : List (String × Json)) (R : List Char) :
    skipWs (printFields d ((k, v) :: kv2 :: t2) ++ R)
      = '"' :: (escapeList k.toList ++ ('"' :: (':' :: (' ' :: (printVal (d + 2) v
          ++ (',' :: (printFields d (kv2 :: t2) ++ R))))))) := by
  rw [printFields, printString]
  · simp only [List.cons_append, List.nil_append, List.append_assoc]
    rw [skipWs_newline, skipWs_spacesN, skipWs_cons_of_not_ws _ _ (by decide)]
  · simp

-- The round-trip statements, by parser fuel --

/-- After a printed number the input must not continue with a digit; every
other printed value is self-delimiting. -/
def numGuard : Json → List Char → Prop
  | .num _, rest => headNotDigit rest
  | _, _ => True

theorem numGuard_any (v : Json) (c : Char) (cs : List Char) (h : c.isDigit = false) :
    numGuard v (c :: cs) := by
  cases v
  case num => exact h
  all_goals trivial

/-- Parsing inverts printing for one value, at any indent, for any fuel at
least the node count. -/
def ValOk (f : Nat) : Prop :=
  ∀ (v : Json) (d : Nat) (rest : List Char), nodes v ≤ f → numGuard v rest →
    parseVal f (printVal d v ++ rest) = some (v, rest)

/-- Parsing inverts printing for a non-empty element list followed by its
closing bracket. -/
def ElemsOk (f : Nat) : Prop :=
  ∀ (xs : List Json) (d : Nat) (rest : List Char), xs ≠ [] → nodesList xs + 1 ≤ f →
    parseElems f (printElems d xs ++ ('\n' :: (spacesN d ++ (']' :: rest)))) = some (xs, rest)

/-- Parsing inverts printing for a non-empty field list followed by its
closing brace. -/
def FieldsOk (f : Nat) : Prop :=
  ∀ (fs : List (String × Json)) (d : Nat) (rest : List Char), fs ≠ [] →
    nodesFields fs + 1 ≤ f →
    parseFields f (printFields d fs ++ ('\n' :: (spacesN d ++ ('}' :: rest)))) = some (fs, rest)

/-- The parser inverts the pretty printer, given fuel at least the printed
value's node count. -/
theorem parse_print (f : Nat) : ValOk f ∧ ElemsOk f ∧ FieldsOk f := by
  induction f with
  | zero =>
    refine ⟨?_, ?_, ?_⟩
    · intro v d rest hn _
      have := nodes_pos v
      omega
    · intro xs d rest _ hn
      omega
    · intro fs d rest _ hn
      omega
  | succ f ih =>
    obtain ⟨ihV, ihE, ihF⟩ := ih
    have hv : ValOk (f + 1) := by
      intro v d rest hn hg
      cases v with
      | null => exact parseVal_null f rest
      | bool b =>
        cases b
        · exact parseVal_false f rest
        · exact parseVal_true f rest
      | num n =>
        by_cases hneg : n < 0
        · have hpi : printVal d (.num n) = '-' :: printNat n.natAbs := by
            show printInt n = _
            rw [printInt, if_pos hneg]
          rw [hpi, List.cons_append, parseVal_neg, parseDigits_printNat _ _ hg]
          show some (Json.num (-(n.natAbs : Int)), rest) = _
          have hval : -((n.natAbs : Int)) = n := by omega
          rw [hval]
        · have hpi : printVal d (.num n) = printNat n.natAbs := by
            show printInt n = _
            rw [printInt, if_neg hneg]
          obtain ⟨c0, cs0, hp, hdig⟩ := printNat_head n.natAbs
          rw [hpi, hp, List.cons_append, parseVal_digit f c0 _ hdig, ← List.cons_append,
            ← hp, parseDigits_printNat _ _ hg]
          show some (Json.num ((n.natAbs : Int)), rest) = _
          have hval : ((n.natAbs : Int)) = n := by omega
          rw [hval]
      | str s =>
        have hpi : printVal d (.str s) ++ rest
            = '"' :: (escapeList s.toList ++ ('"' :: rest)) := by
          show printString s ++ rest = _
          rw [printString]
          simp
        rw [hpi, parseVal_quote, parseStringBody_escape]
        rfl
      | arr xs =>
        cases xs with
        | nil => exact parseVal_lbracket f (']' :: rest)
        | cons x t =>
          have hpi : printVal d (.arr (x :: t)) ++ rest
              = '[' :: (printElems d (x :: t) ++ ('\n' :: (spacesN d ++ (']' :: rest)))) := by
            rw [printVal]
            simp
          rw [hpi]
          obtain ⟨c0, cs', hsk, hne1, _⟩ := skipWs_printElems_head d x t
            ('\n' :: (spacesN d ++ (']' :: rest)))
          rw [parseVal_lbracket_fallback f _ c0 cs' hsk hne1]
          rw [ihE (x :: t) d rest (by simp) (by
            have h1 := nodes_pos x
            simp only [nodes, nodesList] at hn ⊢
            omega)]
          rfl
      | obj fs =>
        cases fs with
        | nil => exact parseVal_lbrace f ('}' :: rest)
        | cons kv t =>
          have hpi : printVal d (.obj (kv :: t)) ++ rest
              = '{' :: (printFields d (kv :: t) ++ ('\n' :: (spacesN d ++ ('}' :: rest)))) := by
            rw [printVal]
            simp
          rw [hpi]
          obtain ⟨cs', hsk⟩ := skipWs_printFields_head d kv t
            ('\n' :: (spacesN d ++ ('}' :: rest)))
          rw [parseVal_lbrace_fallback f _ '"' cs' hsk (by decide)]
          rw [ihF (kv :: t) d rest (by simp) (by
            obtain ⟨k, v2⟩ := kv
            have h1 := nodes_pos v2
            simp only [nodes, nodesFields] at hn ⊢
            omega)]
          rfl
    have he : ElemsOk (f + 1) := by
      intro xs d rest hne hn
      cases xs with
      | nil => exact absurd rfl hne
      | cons x t =>
        cases t with
        | nil =>
          have hx : nodes x ≤ f := by
            simp only [nodesList] at hn
            omega
          have hval : parseVal f (printElems d [x] ++ ('\n' :: (spacesN d ++ (']' :: rest))))
              = some (x, '\n' :: (spacesN d ++ (']' :: rest))) := by
            rw [parseVal_congr f _ (printVal (d + 2) x ++ ('\n' :: (spacesN d ++ (']' :: rest))))
              (by rw [skipWs_printElems_single, skipWs_printVal_append])]
            exact ihV x (d + 2) _ hx (numGuard_any x '\n' _ (by decide))
          have hsk : skipWs ('\n' :: (spacesN d ++ (']' :: rest))) = ']' :: rest := by
            rw [skipWs_newline, skipWs_spacesN, skipWs_cons_of_not_ws _ _ (by decide)]
          exact parseElems_last f _ x _ rest hval hsk
        | cons y t2 =>
          have hx : nodes x ≤ f := by
            have h1 := nodes_pos y
            simp only [nodesList] at hn
            omega
          have ht : nodesList (y :: t2) + 1 ≤ f := by
            have h1 := nodes_pos x
            simp only [nodesList] at hn ⊢
            omega
          have hval : parseVal f
              (printElems d (x :: y :: t2) ++ ('\n' :: (spacesN d ++ (']' :: rest))))
              = some (x, ',' :: (printElems d (y :: t2)
                  ++ ('\n' :: (spacesN d ++ (']' :: rest))))) := by
            rw [parseVal_congr f _ (printVal (d + 2) x
                ++ (',' :: (printElems d (y :: t2) ++ ('\n' :: (spacesN d ++ (']' :: rest))))))
              (by rw [skipWs_printElems_cons, skipWs_printVal_append])]
            exact ihV x (d + 2) _ hx (numGuard_any x ',' _ (by decide))
          have hsk : skipWs (',' :: (printElems d (y :: t2)
              ++ ('\n' :: (spacesN d ++ (']' :: rest)))))
              = ',' :: (printElems d (y :: t2) ++ ('\n' :: (spacesN d ++ (']' :: rest)))) :=
            skipWs_cons_of_not_ws _ _ (by decide)
          rw [parseElems_more f _ x _ _ hval hsk, ihE (y :: t2) d rest (by simp) ht]
          rfl
    have hf : FieldsOk (f + 1) := by
      intro fs d rest hne hn
      cases fs with
      | nil => exact absurd rfl hne
      | cons kv t =>
        obtain ⟨k, v⟩ := kv
        cases t with
        | nil =>
          have hx : nodes v ≤ f := by
            simp only [nodesFields] at hn
            omega
          have h1 := skipWs_printFields_single d k v ('\n' :: (spacesN d ++ ('}' :: rest)))
          have h2 := parseStringBody_escape k.toList
            (':' :: (' ' :: (printVal (d + 2) v ++ ('\n' :: (spacesN d ++ ('}' :: rest))))))
          have h3 : skipWs (':' :: (' ' :: (printVal (d + 2) v
              ++ ('\n' :: (spacesN d ++ ('}' :: rest))))))
              = ':' :: (' ' :: (printVal (d + 2) v ++ ('\n' :: (spacesN d ++ ('}' :: rest))))) :=
            skipWs_cons_of_not_ws _ _ (by decide)
          have h4 : parseVal f (' ' :: (printVal (d + 2) v
              ++ ('\n' :: (spacesN d ++ ('}' :: rest)))))
              = some (v, '\n' :: (spacesN d ++ ('}' :: rest))) := by
            rw [parseVal_congr f _ (printVal (d + 2) v ++ ('\n' :: (spacesN d ++ ('}' :: rest))))
              (skipWs_cons_of_ws _ _ (by decide))]
            exact ihV v (d + 2) _ hx (numGuard_any v '\n' _ (by decide))
          have h5 : skipWs ('\n' :: (spacesN d ++ ('}' :: rest))) = '}' :: rest := by
            rw [skipWs_newline, skipWs_spacesN, skipWs_cons_of_not_ws _ _ (by decide)]
          rw [parseFields_last f _ _ k.toList _ _ v _ rest h1 h2 h3 h4 h5]
          rfl
        | cons kv2 t2 =>
          have hx : nodes v ≤ f := by
            obtain ⟨k2, v2⟩ := kv2
            have h0 := nodes_pos v2
            simp only [nodesFields] at hn
            omega
          have ht : nodesFields (kv2 :: t2) + 1 ≤ f := by
            have h0 := nodes_pos v
            simp only [nodesFields] at hn ⊢
            omega
          have h1 := skipWs_printFields_cons d k v kv2 t2
            ('\n' :: (spacesN d ++ ('}' :: rest)))
          have h2 := parseStringBody_escape k.toList
            (':' :: (' ' :: (printVal (d + 2) v ++ (',' :: (printFields d (kv2 :: t2)
              ++ ('\n' :: (spacesN d ++ ('}' :: rest))))))))
          have h3 : skipWs (':' :: (' ' :: (printVal (d + 2) v
              ++ (',' :: (printFields d (kv2 :: t2) ++ ('\n' :: (spacesN d ++ ('}' :: rest))))))))
              = ':' :: (' ' :: (printVal (d + 2) v
                ++ (',' :: (printFields d (kv2 :: t2)
                  ++ ('\n' :: (spacesN d ++ ('}' :: rest))))))) :=
            skipWs_cons_of_not_ws _ _ (by decide)
          have h4 : parseVal f (' ' :: (printVal (d + 2) v
              ++ (',' :: (printFields d (kv2 :: t2) ++ ('\n' :: (spacesN d ++ ('}' :: rest)))))))
              = some (v, ',' :: (printFields d (kv2 :: t2)
                  ++ ('\n' :: (spacesN d ++ ('}' :: rest))))) := by
            rw [parseVal_congr f _ (printVal (d + 2) v
                ++ (',' :: (printFields d (kv2 :: t2) ++ ('\n' :: (spacesN d ++ ('}' :: rest))))))
              (skipWs_cons_of_ws _ _ (by decide))]
            exact ihV v (d + 2) _ hx (numGuard_any v ',' _ (by decide))
          have h5 : skipWs (',' :: (printFields d (kv2 :: t2)
              ++ ('\n' :: (spacesN d ++ ('}' :: rest)))))
              = ',' :: (printFields d (kv2 :: t2) ++ ('\n' :: (spacesN d ++ ('}' :: rest)))) :=
            skipWs_cons_of_not_ws _ _ (by decide)
          rw [parseFields_more f _ _ k.toList _ _ v _ _ h1 h2 h3 h4 h5,
            ihF (kv2 :: t2) d rest (by simp) ht]
          rfl
    exact ⟨hv, he, hf⟩

-- Fuel bound: a printed value is at least as long as its node count --

theorem length_bound (N : Nat) :
    (∀ (v : Json) (d : Nat), nodes v ≤ N → nodes v ≤ (printVal d v).length)
    ∧ (∀ (xs : List Json) (d : Nat), nodesList xs ≤ N → xs ≠ [] →
        nodesList xs + 1 ≤ (printElems d xs).length)
    ∧ (∀ (fs : List (String × Json)) (d : Nat), nodesFields fs ≤ N → fs ≠ [] →
        nodesFields fs + 1 ≤ (printFields d fs).length) := by
  induction N with
  | zero =>
    refine ⟨?_, ?_, ?_⟩
    · intro v d hn
      have := nodes_pos v
      omega
    · intro xs d hn hne
      cases xs with
      | nil => exact absurd rfl hne
      | cons x t =>
        have := nodes_pos x
        simp only [nodesList] at hn
        omega
    · intro fs d hn hne
      cases fs with
      | nil => exact absurd rfl hne
      | cons kv t =>
        obtain ⟨k, v⟩ := kv
        have := nodes_pos v
        simp only [nodesFields] at hn
        omega
  | succ N ih =>
    obtain ⟨ihV, ihE, ihF⟩ := ih
    have hv : ∀ (v : Json) (d : Nat), nodes v ≤ N + 1 → nodes v ≤ (printVal d v).length := by
      intro v d hn
      cases v with
      | null => simp [nodes, printVal]
      | bool b => cases b <;> simp [nodes, printVal]
      | num n =>
        have h1 : printVal d (.num n) ≠ [] := by
          show printInt n ≠ []
          rw [printInt]
          by_cases hneg : n < 0
          · simp [hneg]
          · simp [hneg, printNat_ne_nil]
        have h2 : 1 ≤ (printVal d (.num n)).length := by
          rcases hl : printVal d (.num n) with _ | ⟨c, t⟩
          · exact absurd hl h1
          · simp [hl]
        simpa [nodes] using h2
      | str s =>
        show nodes (.str s) ≤ (printString s).length
        rw [printString]
        simp [nodes]
      | arr xs =>
        cases xs with
        | nil => simp [nodes, nodesList, printVal]
        | cons x t =>
          have hb : nodesList (x :: t) ≤ N := by
            simp only [nodes] at hn
            omega
          have h1 := ihE (x :: t) d hb (by simp)
          rw [printVal]
          simp only [nodes, List.length_append, List.length_cons, spacesN,
            List.length_replicate, List.length_nil]
          omega
      | obj fs =>
        cases fs with
        | nil => simp [nodes, nodesFields, printVal]
        | cons kv t =>
          have hb : nodesFields (kv :: t) ≤ N := by
            simp only [nodes] at hn
            omega
          have h1 := ihF (kv :: t) d hb (by simp)
          rw [printVal]
          simp only [nodes, List.length_append, List.length_cons, spacesN,
            List.length_replicate, List.length_nil]
          omega
    have he : ∀ (xs : List Json) (d : Nat), nodesList xs ≤ N + 1 → xs ≠ [] →
        nodesList xs + 1 ≤ (printElems d xs).length := by
      intro xs d hn hne
      cases xs with
      | nil => exact absurd rfl hne
      | cons x t =>
        cases t with
        | nil =>
          have hx := hv x (d + 2) (by simp only [nodesList] at hn; omega)
          rw [printElems]
          simp only [nodesList, List.length_append, List.length_cons, spacesN,
            List.length_replicate]
          omega
        | cons y t2 =>
          have h0 := nodes_pos x
          have hx := hv x (d + 2) (by
            have h1 := nodes_pos y
            simp only [nodesList] at hn
            omega)
          have ht := ihE (y :: t2) d (by
            simp only [nodesList] at hn ⊢
            omega) (by simp)
          rw [printElems]
          · simp only [nodesList, List.length_append, List.length_cons, spacesN,
              List.length_replicate] at ht ⊢
            omega
          · simp
    have hf : ∀ (fs : List (String × Json)) (d : Nat), nodesFields fs ≤ N + 1 → fs ≠ [] →
        nodesFields fs + 1 ≤ (printFields d fs).length := by
      intro fs d hn hne
      cases fs with
      | nil => exact absurd rfl hne
      | cons kv t =>
        obtain ⟨k, v⟩ := kv
        cases t with
        | nil =>
          have hx := hv v (d + 2) (by simp only [nodesFields] at hn; omega)
          rw [printFields]
          simp only [nodesFields, List.length_append, List.length_cons, spacesN,
            List.length_replicate]
          omega
        | cons kv2 t2 =>
          have h0 := nodes_pos v
          have hx := hv v (d + 2) (by
            obtain ⟨k2, v2⟩ := kv2
            have h1 := nodes_pos v2
            simp only [nodesFields] at hn
            omega)
          have ht := ihF (kv2 :: t2) d (by
            simp only [nodesFields] at hn ⊢
            omega) (by simp)
          rw [printFields]
          · simp only [nodesFields, List.length_append, List.length_cons, spacesN,
              List.length_replicate] at ht ⊢
            omega
          · simp
    exact ⟨hv, he, hf⟩

theorem numGuard_nil (v : Json) : numGuard v [] := by
  cases v <;> trivial

/-- Round trip: `JSON.parse` recovers any value from its two-space-indented
`JSON.stringify` rendering. -/
theorem parseJson_prettyStringify (v : Json) : parseJson (prettyStringify v) = some v := by
  have hlist : (prettyStringify v).toList = printVal 0 v := rfl
  have hbound : nodes v ≤ (printVal 0 v).length + 1 := by
    have h1 := (length_bound (nodes v)).1 v 0 le_rfl
    omega
  have hV := (parse_print ((printVal 0 v).length + 1)).1 v 0 [] hbound (numGuard_nil v)
  rw [List.append_nil] at hV
  rw [parseJson, hlist, hV]
  rfl

-- =============================================================================
-- Response formatter (src/utils/formatters.ts)
-- =============================================================================

/-- One content block of an MCP tool response. -/
structure ContentBlock where
  type : String
  text : String

/-- The `ToolResponse` record: a content array and the optional error flag. -/
structure ToolResponse where
  content : List ContentBlock
  isError : Option Bool

/-- The structured (non-markdown) branch of `formatResponse`: one text block
holding `JSON.stringify(data, null, 2)`, no error flag. -/
def formatResponseJson (data : Json) : ToolResponse :=
  ⟨[⟨"text", prettyStringify data⟩], none⟩

-- =============================================================================
-- C9 — JSON-mode round trip of formatResponse
-- =============================================================================

/-- C9: rendering any payload in structured (json) mode produces a single
text block whose text is the pretty-printed JSON of the payload, and parsing
that text back yields a value equal to the original payload. -/
theorem formatResponse_json_roundtrip (data : Json) :
    (formatResponseJson data).content = [⟨"text", prettyStringify data⟩]
    ∧ (formatResponseJson data).isError = none
    ∧ parseJson (prettyStringify data) = some data :=
  ⟨rfl, rfl, parseJson_prettyStringify data⟩
